import Mathlib

/-!
# LED strip driver (`components/led_strip`): pixel buffer, symbol compiler, encoder

A shallow embedding of `led_strip_new.c` and `led_strip_encoder.c`.

* C structs become Lean structures with the same field names.
* `size_t` is the 32-bit unsigned type of the ESP32 targets: sums and products of
  `size_t` values are taken modulo `2 ^ 32`.
* A function that mutates `*strip` returns the new strip next to its `esp_err_t`.
* The `strip` pointer itself is taken to be non-null: the functions receive a strip value
  (`led_strip_busy` and `led_strip_wait` take an optional strip, `none` being null).
-/

namespace LedStrip

/-! ## Error codes

The values are those of `esp_err.h` of the ESP-IDF, which is not among the sources. -/

abbrev esp_err_t := Int

def ESP_OK : esp_err_t := 0
def ESP_FAIL : esp_err_t := -1
def ESP_ERR_NO_MEM : esp_err_t := 0x101
def ESP_ERR_INVALID_ARG : esp_err_t := 0x102
def ESP_ERR_TIMEOUT : esp_err_t := 0x107

/-- Number of values of `size_t` on the 32-bit ESP32 targets. -/
def SIZE_T : Nat := 2 ^ 32

/-! ## Timing table (`led_params`) -/

inductive color_order_t where
  | ORDER_GRB
  | ORDER_RGB
deriving DecidableEq, Repr

structure led_params_t where
  t0h : Nat
  t0l : Nat
  t1h : Nat
  t1l : Nat
  trst : Nat
  order : color_order_t
deriving DecidableEq, Repr

/-- Modelled from the spec: the enumeration `led_strip_type_t` is declared in `led_strip.h`,
which is not among the sources; its enumerators are numbered in the order in which the
`led_params` table and the file header list the five variants. -/
def LED_STRIP_WS2812 : Nat := 0
/-- Modelled from the spec: second enumerator of `led_strip_type_t` (see `LED_STRIP_WS2812`). -/
def LED_STRIP_SK6812 : Nat := 1
/-- Modelled from the spec: third enumerator of `led_strip_type_t` (see `LED_STRIP_WS2812`). -/
def LED_STRIP_APA106 : Nat := 2
/-- Modelled from the spec: fourth enumerator of `led_strip_type_t` (see `LED_STRIP_WS2812`). -/
def LED_STRIP_SM16703 : Nat := 3
/-- Modelled from the spec: fifth enumerator of `led_strip_type_t` (see `LED_STRIP_WS2812`). -/
def LED_STRIP_PI33TB : Nat := 4
/-- Modelled from the spec: the end marker of `led_strip_type_t`, one past the last variant. -/
def LED_STRIP_TYPE_MAX : Nat := 5

/-- The table `led_params[]`, indexed by strip type. -/
def led_params : List led_params_t :=
  [ { t0h := 400, t0l := 1000, t1h := 1000, t1l := 400, trst := 50, order := .ORDER_GRB },
    { t0h := 300, t0l := 900,  t1h := 600,  t1l := 600, trst := 80, order := .ORDER_GRB },
    { t0h := 350, t0l := 1360, t1h := 1360, t1l := 350, trst := 50, order := .ORDER_RGB },
    { t0h := 300, t0l := 900,  t1h := 1360, t1l := 350, trst := 80, order := .ORDER_RGB },
    { t0h := 300, t0l := 900,  t1h := 900,  t1l := 300, trst := 80, order := .ORDER_GRB } ]

/-! ## Symbol compiler (`led_strip_install`) -/

/-- A finite non-negative `float` value, held exactly as the fraction `num / den`. -/
structure float_t where
  num : Nat
  den : Nat
deriving DecidableEq, Repr

/-- The least `u` (searched upwards from the given one) with `q * 2 ^ 23 ≤ p * 2 ^ u`:
the number of binary places by which `p / q` is shifted left to reach 24 significant bits. -/
def scale_up (p q : Nat) : Nat → Nat → Nat
  | 0, u => u
  | fuel + 1, u => if p * 2 ^ u < q * 2 ^ 23 then scale_up p q fuel (u + 1) else u

/-- The least `d` (searched upwards from the given one) with `p < q * 2 ^ d * 2 ^ 24`:
the number of binary places by which `p / q` is shifted right to reach 24 significant bits. -/
def scale_down (p q : Nat) : Nat → Nat → Nat
  | 0, d => d
  | fuel + 1, d => if q * 2 ^ d * 2 ^ 24 ≤ p then scale_down p q fuel (d + 1) else d

/-- Rounding of the exact fraction `p / q` to the nearest `float` (IEEE 754 binary32: a
24-bit significand, ties to the even significand).  The fraction is shifted so that its
integer part `n` has 24 bits, `n` is rounded on the remainder, and the shift is undone.
Both searches are bounded by 192 steps, more than the binary32 exponent range; the values
that occur in the driver are far from the subnormal and overflow ranges. -/
def f32_round (p q : Nat) : float_t :=
  if p = 0 then { num := 0, den := 1 } else
    let u := scale_up p q 192 0
    let d := scale_down p q 192 0
    let P := p * 2 ^ u
    let Q := q * 2 ^ d
    let n := P / Q
    let r := P % Q
    let M := if Q < 2 * r ∨ (2 * r = Q ∧ n % 2 = 1) then n + 1 else n
    { num := M * 2 ^ d, den := 2 ^ u }

/-- Conversion of an unsigned integer to `float`. -/
def f32_of_nat (n : Nat) : float_t := f32_round n 1

/-- The `float` quotient `a / b`. -/
def f32_div (a b : float_t) : float_t := f32_round (a.num * b.den) (a.den * b.num)

/-- The `float` product `a * b`. -/
def f32_mul (a b : float_t) : float_t := f32_round (a.num * b.num) (a.den * b.den)

/-- The cast `(uint32_t)x` of a `float`: the fractional part is discarded. -/
def f32_to_u32 (x : float_t) : Nat := (x.num / x.den) % 2 ^ 32

/-- The type `rmt_symbol_word_t`: two (level, duration) half-periods; the durations are 15-bit
fields and the levels 1-bit fields. -/
structure rmt_symbol_word_t where
  duration0 : Nat
  level0 : Nat
  duration1 : Nat
  level1 : Nat
deriving DecidableEq, Repr

/-- The fields of `rmt_bytes_encoder_config_t` set by the driver. -/
structure rmt_bytes_encoder_config_t where
  bit0 : rmt_symbol_word_t
  bit1 : rmt_symbol_word_t
  msb_first : Nat
deriving DecidableEq, Repr

/-- The macro `RMT_LED_STRIP_RESOLUTION_HZ`: 10 MHz, one tick is 0.1 us. -/
def RMT_LED_STRIP_RESOLUTION_HZ : Nat := 10000000

/-- The local `ratio` of `led_strip_install`:
`(float)RMT_LED_STRIP_RESOLUTION_HZ / 1e09f`. -/
def install_ratio : float_t :=
  f32_div (f32_of_nat RMT_LED_STRIP_RESOLUTION_HZ) (f32_of_nat 1000000000)

/-- The expression `(uint32_t)(ratio * t)` for a `uint32_t` table entry `t`. -/
def ticks (t : Nat) : Nat := f32_to_u32 (f32_mul install_ratio (f32_of_nat t))

/-- A store into a 15-bit duration field. -/
def dur15 (n : Nat) : Nat := n % 2 ^ 15

/-- The all-zero table entry read when an index lies outside `led_params`. -/
def led_params_zero : led_params_t :=
  { t0h := 0, t0l := 0, t1h := 0, t1l := 0, trst := 0, order := .ORDER_GRB }

/-- Body of the loop of `led_strip_install` for index `i`: the entry `rmt_items[i]`. -/
def install_item (i : Nat) : rmt_bytes_encoder_config_t :=
  let p := led_params.getD i led_params_zero
  { bit0 := { duration0 := dur15 (ticks p.t0h), level0 := 1,
              duration1 := dur15 (ticks p.t0l), level1 := 0 },
    bit1 := { duration0 := dur15 (ticks p.t1h), level0 := 1,
              duration1 := dur15 (ticks p.t1l), level1 := 0 },
    msb_first := 1 }

/-- Body of the loop of `led_strip_install` for index `i`: the entry `rmt_rst_items[i]`. -/
def install_rst_item (i : Nat) : rmt_symbol_word_t :=
  let p := led_params.getD i led_params_zero
  { level0 := 0, duration0 := dur15 (ticks p.trst / 2),
    level1 := 0, duration1 := dur15 (ticks p.trst / 2) }

/-- The two module tables `rmt_items` and `rmt_rst_items`. -/
structure rmt_tables_t where
  rmt_items : List rmt_bytes_encoder_config_t
  rmt_rst_items : List rmt_symbol_word_t
deriving DecidableEq, Repr

/-- The function `led_strip_install`: fills both tables for every `i < LED_STRIP_TYPE_MAX`. -/
def led_strip_install : rmt_tables_t :=
  { rmt_items := (List.range LED_STRIP_TYPE_MAX).map install_item,
    rmt_rst_items := (List.range LED_STRIP_TYPE_MAX).map install_rst_item }

/-! ## LED strip encoder (`led_strip_encoder.c`) -/

/-- The type `rmt_encode_state_t` of the RMT driver (`driver/rmt_encoder.h`, not among the
sources): a set of flag bits, `RMT_ENCODING_COMPLETE` being bit 0 and
`RMT_ENCODING_MEM_FULL` bit 1. -/
abbrev rmt_encode_state_t := Nat

def RMT_ENCODING_RESET : rmt_encode_state_t := 0
def RMT_ENCODING_COMPLETE : rmt_encode_state_t := 1
def RMT_ENCODING_MEM_FULL : rmt_encode_state_t := 2

/-- Modelled from the spec: the hardware symbol slot of the transmission channel, which is
not among the sources.  `free` is the number of pulse symbols the slot can still take,
`symbols` are the pulse symbols placed in it so far, in order. -/
structure rmt_channel_t where
  free : Nat
  symbols : List rmt_symbol_word_t
deriving DecidableEq, Repr

/-- What a call `enc->encode(enc, channel, data, size, &session_state)` leaves behind: the
sub-encoder and the channel after the call, the returned symbol count, and the value
written to `session_state`. -/
structure encode_result_t (σ : Type) where
  encoder : σ
  channel : rmt_channel_t
  count : Nat
  state : rmt_encode_state_t

/-- The function pointers of a sub-encoder (`rmt_encoder_t`) whose private data has type
`σ` and whose input data has type `δ`. -/
structure rmt_encoder_t (σ δ : Type) where
  encode : σ → rmt_channel_t → δ → encode_result_t σ
  reset : σ → σ

/-- The struct `rmt_led_strip_encoder_t`; the two sub-encoder fields hold the private data of the
sub-encoders the C struct points to. -/
structure rmt_led_strip_encoder_t (σb σc : Type) where
  bytes_encoder : σb
  copy_encoder : σc
  state : Int
  reset_code : rmt_symbol_word_t
deriving DecidableEq, Repr

/-- Effect of one call of `rmt_encode_led_strip`: the encoder and the channel after the
call, the returned `encoded_symbols`, and the value stored in `*ret_state`. -/
structure led_encode_result_t (σb σc : Type) where
  encoder : rmt_led_strip_encoder_t σb σc
  channel : rmt_channel_t
  encoded_symbols : Nat
  ret_state : rmt_encode_state_t

/-- The code of `rmt_encode_led_strip` from the label `case 1:` to the label `out:`,
entered with the current values of `encoded_symbols` and `state`. -/
def encode_case_1 {σb σc : Type} (C : rmt_encoder_t σc (List rmt_symbol_word_t))
    (led_encoder : rmt_led_strip_encoder_t σb σc) (channel : rmt_channel_t)
    (encoded_symbols : Nat) (state : rmt_encode_state_t) : led_encode_result_t σb σc :=
  let r := C.encode led_encoder.copy_encoder channel [led_encoder.reset_code]
  let encoded_symbols := (encoded_symbols + r.count) % SIZE_T
  let led_encoder := { led_encoder with copy_encoder := r.encoder }
  let session_state := r.state
  let led_encoder :=
    if session_state &&& RMT_ENCODING_COMPLETE ≠ 0 then
      { led_encoder with state := RMT_ENCODING_RESET }
    else led_encoder
  let state :=
    if session_state &&& RMT_ENCODING_COMPLETE ≠ 0 then state ||| RMT_ENCODING_COMPLETE
    else state
  let state :=
    if session_state &&& RMT_ENCODING_MEM_FULL ≠ 0 then state ||| RMT_ENCODING_MEM_FULL
    else state
  { encoder := led_encoder, channel := r.channel, encoded_symbols := encoded_symbols,
    ret_state := state }

/-- The function `rmt_encode_led_strip`.  `B` and `C` are the bytes and the copy sub-encoder.  In
`case 0` the code falls through to `case 1` whenever the bytes encoder did not report
`RMT_ENCODING_MEM_FULL`. -/
def rmt_encode_led_strip {σb σc : Type} (B : rmt_encoder_t σb (List UInt8))
    (C : rmt_encoder_t σc (List rmt_symbol_word_t))
    (led_encoder : rmt_led_strip_encoder_t σb σc) (channel : rmt_channel_t)
    (primary_data : List UInt8) : led_encode_result_t σb σc :=
  if led_encoder.state = 0 then
    let r := B.encode led_encoder.bytes_encoder channel primary_data
    let encoded_symbols := (0 + r.count) % SIZE_T
    let led_encoder := { led_encoder with bytes_encoder := r.encoder }
    let session_state := r.state
    let led_encoder :=
      if session_state &&& RMT_ENCODING_COMPLETE ≠ 0 then { led_encoder with state := 1 }
      else led_encoder
    if session_state &&& RMT_ENCODING_MEM_FULL ≠ 0 then
      { encoder := led_encoder, channel := r.channel, encoded_symbols := encoded_symbols,
        ret_state := RMT_ENCODING_RESET ||| RMT_ENCODING_MEM_FULL }
    else encode_case_1 C led_encoder r.channel encoded_symbols RMT_ENCODING_RESET
  else if led_encoder.state = 1 then
    encode_case_1 C led_encoder channel 0 RMT_ENCODING_RESET
  else
    { encoder := led_encoder, channel := channel, encoded_symbols := 0,
      ret_state := RMT_ENCODING_RESET }

/-- The function `rmt_led_strip_encoder_reset`: both sub-encoders are reset (the results
of `rmt_encoder_reset` are ignored) and `state` returns to `RMT_ENCODING_RESET`. -/
def rmt_led_strip_encoder_reset {σb σc : Type} (B : rmt_encoder_t σb (List UInt8))
    (C : rmt_encoder_t σc (List rmt_symbol_word_t))
    (led_encoder : rmt_led_strip_encoder_t σb σc) :
    esp_err_t × rmt_led_strip_encoder_t σb σc :=
  (ESP_OK, { led_encoder with
    bytes_encoder := B.reset led_encoder.bytes_encoder
    copy_encoder := C.reset led_encoder.copy_encoder
    state := RMT_ENCODING_RESET })

/-! ### The two sub-encoders and the transmission loop -/

/-- Modelled from the spec: private data of the Data Encoder (the bytes encoder of the RMT
driver, not among the sources): the bit templates and the cursor, counted in pulse symbols
of the current buffer already emitted. -/
structure bytes_encoder_t where
  config : rmt_bytes_encoder_config_t
  cursor : Nat
deriving DecidableEq, Repr

/-- Modelled from the spec: the eight pulse symbols of one byte, one per bit, the most
significant bit first when `msb_first` is set. -/
def byte_symbols (config : rmt_bytes_encoder_config_t) (b : UInt8) : List rmt_symbol_word_t :=
  (List.range 8).map fun k =>
    if b.toNat.testBit (if config.msb_first ≠ 0 then 7 - k else k) then config.bit1
    else config.bit0

/-- Modelled from the spec: the pulse symbols of a whole buffer, byte after byte. -/
def data_symbols (config : rmt_bytes_encoder_config_t) (data : List UInt8) :
    List rmt_symbol_word_t :=
  (data.map (byte_symbols config)).flatten

/-- Modelled from the spec: a sub-encoder call on a symbol stream.  Starting at `cursor` it
places as many symbols of `stream` in the slot as fit; it reports complete when the stream
was finished, and buffer-full when the slot has no room left for more; the new cursor is
the position reached, or `0` after completion. -/
def stream_encode (stream : List rmt_symbol_word_t) (cursor : Nat) (channel : rmt_channel_t) :
    encode_result_t Nat :=
  let mem_want := stream.length - cursor
  let mem_have := channel.free
  let encode_len := min mem_want mem_have
  { encoder := if mem_have < mem_want then cursor + encode_len else 0,
    channel := { free := channel.free - encode_len,
                 symbols := channel.symbols ++ (stream.drop cursor).take encode_len },
    count := encode_len,
    state := (if mem_have < mem_want then 0 else RMT_ENCODING_COMPLETE) |||
             (if mem_want < mem_have then 0 else RMT_ENCODING_MEM_FULL) }

/-- Modelled from the spec: the Data Encoder (section 2, item 4 and section 4.3): converts
the bytes to pulse symbols with the bit templates and keeps its cursor across calls. -/
def bytes_encoder : rmt_encoder_t bytes_encoder_t (List UInt8) where
  encode := fun e channel data =>
    let r := stream_encode (data_symbols e.config data) e.cursor channel
    { encoder := { e with cursor := r.encoder }, channel := r.channel, count := r.count,
      state := r.state }
  reset := fun e => { e with cursor := 0 }

/-- Modelled from the spec: the Reset Encoder (the copy encoder of the RMT driver, not among
the sources): emits the symbols it is handed; its private data is its cursor. -/
def copy_encoder : rmt_encoder_t Nat (List rmt_symbol_word_t) where
  encode := fun cursor channel data => stream_encode data cursor channel
  reset := fun _ => 0

/-- The encoder a successful `led_strip_encoder_init` creates: `state` is zero from
`calloc`, both sub-encoders are new, and the reset code is stored. -/
def encoder_initial (bytes_config : rmt_bytes_encoder_config_t)
    (rst_config : rmt_symbol_word_t) : rmt_led_strip_encoder_t bytes_encoder_t Nat :=
  { bytes_encoder := { config := bytes_config, cursor := 0 }, copy_encoder := 0, state := 0,
    reset_code := rst_config }

/-- Outcomes of the calls `led_strip_encoder_init` makes outside the driver: whether
`calloc` returns a block, and the results of creating the two sub-encoders. -/
structure encoder_env_t where
  calloc_ok : Bool
  rmt_new_bytes_encoder : esp_err_t
  rmt_new_copy_encoder : esp_err_t
deriving DecidableEq, Repr

/-- The function `led_strip_encoder_init`: the error code and, on success only, the encoder stored in
`*ret_encoder`. -/
def led_strip_encoder_init (env : encoder_env_t) (bytes_config : rmt_bytes_encoder_config_t)
    (rst_config : rmt_symbol_word_t) :
    esp_err_t × Option (rmt_led_strip_encoder_t bytes_encoder_t Nat) :=
  if env.calloc_ok = false then (ESP_ERR_NO_MEM, none)
  else if env.rmt_new_bytes_encoder ≠ ESP_OK then (env.rmt_new_bytes_encoder, none)
  else if env.rmt_new_copy_encoder ≠ ESP_OK then (env.rmt_new_copy_encoder, none)
  else (ESP_OK, some (encoder_initial bytes_config rst_config))

/-- One invocation of the encoder by the transmission loop: the symbols it placed in the
slot, the count it returned, the status it reported, and the room left in the slot. -/
structure invocation_t where
  symbols : List rmt_symbol_word_t
  count : Nat
  ret_state : rmt_encode_state_t
  free_after : Nat
deriving DecidableEq, Repr

/-- Modelled from the spec: the transmission loop of the channel (section 6, `transmit`),
not among the sources.  It invokes the encoder with the same data and a drained slot of
capacity `K`, again after every return that does not report complete; `none` when the
given number of invocations is used up before that. -/
def transmit_loop (K : Nat) (data : List UInt8) :
    Nat → rmt_led_strip_encoder_t bytes_encoder_t Nat →
      Option (List invocation_t × rmt_led_strip_encoder_t bytes_encoder_t Nat)
  | 0, _ => none
  | fuel + 1, led_encoder =>
    let r := rmt_encode_led_strip bytes_encoder copy_encoder led_encoder
      { free := K, symbols := [] } data
    let inv : invocation_t :=
      { symbols := r.channel.symbols, count := r.encoded_symbols, ret_state := r.ret_state,
        free_after := r.channel.free }
    if r.ret_state &&& RMT_ENCODING_COMPLETE ≠ 0 then some ([inv], r.encoder)
    else
      match transmit_loop K data fuel r.encoder with
      | none => none
      | some (rest, e) => some (inv :: rest, e)

/-! ### Invocation sequences and call counting -/

/-- A sub-encoder that behaves as `E` and counts, next to the private data of `E`, the
calls of its `encode` function. -/
def counted {σ δ : Type} (E : rmt_encoder_t σ δ) : rmt_encoder_t (σ × Nat) δ where
  encode := fun s channel data =>
    let r := E.encode s.1 channel data
    { encoder := (r.encoder, s.2 + 1), channel := r.channel, count := r.count,
      state := r.state }
  reset := fun s => (E.reset s.1, s.2)

/-- The encoder `led_encoder` with call counters `nb` and `nc` attached to the private data
of its two sub-encoders, for use with `counted` sub-encoders. -/
def with_counts {σb σc : Type} (led_encoder : rmt_led_strip_encoder_t σb σc) (nb nc : Nat) :
    rmt_led_strip_encoder_t (σb × Nat) (σc × Nat) :=
  { bytes_encoder := (led_encoder.bytes_encoder, nb),
    copy_encoder := (led_encoder.copy_encoder, nc),
    state := led_encoder.state, reset_code := led_encoder.reset_code }

/-- The results of a sequence of invocations of `rmt_encode_led_strip`, each with its own
channel state and data, every invocation starting on the encoder the previous one left. -/
def encode_run {σb σc : Type} (B : rmt_encoder_t σb (List UInt8))
    (C : rmt_encoder_t σc (List rmt_symbol_word_t)) :
    List (rmt_channel_t × List UInt8) → rmt_led_strip_encoder_t σb σc → List invocation_t
  | [], _ => []
  | (channel, data) :: rest, led_encoder =>
    let r := rmt_encode_led_strip B C led_encoder channel data
    { symbols := r.channel.symbols, count := r.encoded_symbols, ret_state := r.ret_state,
      free_after := r.channel.free } :: encode_run B C rest r.encoder

/-- The private data a sub-encoder can reach from `s0` by calls of `encode` and `reset`. -/
inductive sub_reachable {σ δ : Type} (E : rmt_encoder_t σ δ) (s0 : σ) : σ → Prop where
  | init : sub_reachable E s0 s0
  | encode (s : σ) (channel : rmt_channel_t) (data : δ) :
      sub_reachable E s0 s → sub_reachable E s0 (E.encode s channel data).encoder
  | reset (s : σ) : sub_reachable E s0 s → sub_reachable E s0 (E.reset s)

/-- The encoder states reachable from `fresh` by invocations of `rmt_encode_led_strip`
(with any channel state and data) and of `rmt_led_strip_encoder_reset`. -/
inductive led_reachable {σb σc : Type} (B : rmt_encoder_t σb (List UInt8))
    (C : rmt_encoder_t σc (List rmt_symbol_word_t)) (fresh : rmt_led_strip_encoder_t σb σc) :
    rmt_led_strip_encoder_t σb σc → Prop where
  | init : led_reachable B C fresh fresh
  | encode (led_encoder : rmt_led_strip_encoder_t σb σc) (channel : rmt_channel_t)
      (data : List UInt8) :
      led_reachable B C fresh led_encoder →
      led_reachable B C fresh (rmt_encode_led_strip B C led_encoder channel data).encoder
  | reset (led_encoder : rmt_led_strip_encoder_t σb σc) :
      led_reachable B C fresh led_encoder →
      led_reachable B C fresh (rmt_led_strip_encoder_reset B C led_encoder).2

/-- A data sub-encoder that places nothing in the slot and reports neither complete nor
buffer-full. -/
def idle_encoder : rmt_encoder_t Unit (List UInt8) where
  encode := fun s channel _ =>
    { encoder := s, channel := channel, count := 0, state := RMT_ENCODING_RESET }
  reset := fun s => s

/-! ## Strip operations (`led_strip_new.c`) -/

structure rgb_t where
  r : UInt8
  g : UInt8
  b : UInt8
deriving DecidableEq, Repr

/-- Memory reached through `strip->buf`: `bytes` is the block obtained from `calloc`;
`stray` records, in program order, every store whose offset lies outside that block. -/
structure pixel_mem_t where
  bytes : List UInt8
  stray : List (Nat × UInt8)
deriving DecidableEq, Repr

/-- The assignment `strip->buf[idx] = v`. -/
def buf_store (m : pixel_mem_t) (idx : Nat) (v : UInt8) : pixel_mem_t :=
  if idx < m.bytes.length then { m with bytes := m.bytes.set idx v }
  else { m with stray := m.stray ++ [(idx, v)] }

/-- Modelled from the spec: `led_strip_t` is declared in `led_strip.h`, which is not among
the sources; these are the fields the driver uses.  `none` stands for a null `buf`, and for
a `channel` or `encoder` handle that was not created. -/
structure led_strip_t where
  type : Nat
  is_rgbw : Bool
  length : Nat
  gpio : Nat
  channel : Option Nat
  encoder : Option (rmt_led_strip_encoder_t bytes_encoder_t Nat)
  buf : Option pixel_mem_t
deriving DecidableEq, Repr

/-- The macro `COLOR_SIZE(strip)`, defined as `(3 + ((strip)->is_rgbw != 0))`. -/
def COLOR_SIZE (strip : led_strip_t) : Nat := 3 + (if strip.is_rgbw then 1 else 0)

/-- The function `led_strip_set_pixel`; `rgb_luma` is the luma function of the colour
library.  The offsets `idx + 1`, `idx + 2`, `idx + 3` are `size_t` sums. -/
def led_strip_set_pixel (rgb_luma : rgb_t → UInt8) (strip : led_strip_t) (num : Nat)
    (color : rgb_t) : esp_err_t × led_strip_t :=
  match strip.buf with
  | none => (ESP_ERR_INVALID_ARG, strip)
  | some m =>
    if num ≤ strip.length then
      let idx := (num * COLOR_SIZE strip) % SIZE_T
      match led_params[strip.type]? with
      | none => (ESP_OK, strip)
      | some p =>
        match p.order with
        | .ORDER_GRB =>
          let m := buf_store m idx color.g
          let m := buf_store m ((idx + 1) % SIZE_T) color.r
          let m := buf_store m ((idx + 2) % SIZE_T) color.b
          let m :=
            if strip.is_rgbw then buf_store m ((idx + 3) % SIZE_T) (rgb_luma color) else m
          (ESP_OK, { strip with buf := some m })
        | .ORDER_RGB =>
          let m := buf_store m idx color.r
          let m := buf_store m ((idx + 1) % SIZE_T) color.g
          let m := buf_store m ((idx + 2) % SIZE_T) color.b
          let m :=
            if strip.is_rgbw then buf_store m ((idx + 3) % SIZE_T) (rgb_luma color) else m
          (ESP_OK, { strip with buf := some m })
    else (ESP_ERR_INVALID_ARG, strip)

/-- The loop of `led_strip_set_pixels`: `n` iterations remain, the counter is `i`;
`CHECK` leaves the loop at the first failing `led_strip_set_pixel`. -/
def set_pixels_loop (rgb_luma : rgb_t → UInt8) (start : Nat) (data : Nat → rgb_t) :
    Nat → Nat → led_strip_t → esp_err_t × led_strip_t
  | 0, _, strip => (ESP_OK, strip)
  | n + 1, i, strip =>
    let r := led_strip_set_pixel rgb_luma strip ((i + start) % SIZE_T) (data i)
    if r.1 ≠ ESP_OK then r else set_pixels_loop rgb_luma start data n (i + 1) r.2

/-- The function `led_strip_set_pixels`; `data` is the colour array read as `data[i]`. -/
def led_strip_set_pixels (rgb_luma : rgb_t → UInt8) (strip : led_strip_t) (start len : Nat)
    (data : Nat → rgb_t) : esp_err_t × led_strip_t :=
  if strip.buf.isSome ∧ len ≠ 0 ∧ (start + len) % SIZE_T ≤ strip.length then
    set_pixels_loop rgb_luma start data len 0 strip
  else (ESP_ERR_INVALID_ARG, strip)

/-- The loop of `led_strip_fill`: the counter is `i`, `n` iterations remain before `i`
reaches the bound `start + len`. -/
def fill_loop (rgb_luma : rgb_t → UInt8) (color : rgb_t) :
    Nat → Nat → led_strip_t → esp_err_t × led_strip_t
  | 0, _, strip => (ESP_OK, strip)
  | n + 1, i, strip =>
    let r := led_strip_set_pixel rgb_luma strip i color
    if r.1 ≠ ESP_OK then r else fill_loop rgb_luma color n (i + 1) r.2

/-- The function `led_strip_fill`: the loop runs `i` from `start` while `i < start + len`, the bound
being a `size_t` sum, hence `(start + len) % SIZE_T - start` iterations. -/
def led_strip_fill (rgb_luma : rgb_t → UInt8) (strip : led_strip_t) (start len : Nat)
    (color : rgb_t) : esp_err_t × led_strip_t :=
  if strip.buf.isSome ∧ len ≠ 0 ∧ (start + len) % SIZE_T ≤ strip.length then
    fill_loop rgb_luma color ((start + len) % SIZE_T - start) start strip
  else (ESP_ERR_INVALID_ARG, strip)

/-- A strip as `led_strip_init` leaves it: a known type, and a buffer of
`length * COLOR_SIZE` bytes whose size fits in `size_t`. -/
def strip_allocated (strip : led_strip_t) : Prop :=
  strip.type < LED_STRIP_TYPE_MAX ∧ strip.length * COLOR_SIZE strip < SIZE_T ∧
    ∃ m, strip.buf = some m ∧ m.bytes.length = strip.length * COLOR_SIZE strip

/-- The call `calloc(nmemb, size)`: a zero-filled block of `nmemb * size` bytes, or null
when the allocator has no memory or the size does not fit in `size_t`. -/
def calloc (ok : Bool) (nmemb size : Nat) : Option pixel_mem_t :=
  if ok = true ∧ nmemb * size < SIZE_T then
    some { bytes := List.replicate (nmemb * size) 0, stray := [] }
  else none

/-- Outcomes of the calls `led_strip_init` makes outside the driver: whether `calloc`
returns a block, the result of `rmt_new_tx_channel` and the handle it yields, the outcomes
inside `led_strip_encoder_init`, and the result of `rmt_enable`. -/
structure init_env_t where
  calloc_ok : Bool
  rmt_new_tx_channel : esp_err_t
  channel : Nat
  encoder_env : encoder_env_t
  rmt_enable : esp_err_t
deriving DecidableEq, Repr

/-- The all-zero symbol, the content of the module tables before `led_strip_install`. -/
def rmt_symbol_zero : rmt_symbol_word_t :=
  { duration0 := 0, level0 := 0, duration1 := 0, level1 := 0 }

/-- The function `led_strip_init`; `tables` are the module tables `rmt_items` and `rmt_rst_items`. -/
def led_strip_init (env : init_env_t) (tables : rmt_tables_t) (strip : led_strip_t) :
    esp_err_t × led_strip_t :=
  if ¬ (0 < strip.length ∧ strip.type < LED_STRIP_TYPE_MAX) then (ESP_ERR_INVALID_ARG, strip)
  else
    let strip := { strip with buf := calloc env.calloc_ok strip.length (COLOR_SIZE strip) }
    if strip.buf.isNone then (ESP_ERR_NO_MEM, strip)
    else if env.rmt_new_tx_channel ≠ ESP_OK then (env.rmt_new_tx_channel, strip)
    else
      let strip := { strip with channel := some env.channel }
      let r := led_strip_encoder_init env.encoder_env
        (tables.rmt_items.getD strip.type
          { bit0 := rmt_symbol_zero, bit1 := rmt_symbol_zero, msb_first := 0 })
        (tables.rmt_rst_items.getD strip.type rmt_symbol_zero)
      if r.1 ≠ ESP_OK then (r.1, strip)
      else
        let strip := { strip with encoder := r.2 }
        if env.rmt_enable ≠ ESP_OK then (env.rmt_enable, strip) else (ESP_OK, strip)

/-- The function `led_strip_busy`.  The call `rmt_tx_wait_all_done(channel, timeout)` of the
RMT driver is a parameter: it acts on the state `w` of the channel hardware and yields a
status.  `strip = none` is a null `strip`. -/
def led_strip_busy {ω : Type} (rmt_tx_wait_all_done : ω → Option Nat → Nat → esp_err_t × ω)
    (w : ω) (strip : Option led_strip_t) : Bool × ω :=
  match strip with
  | none => (false, w)
  | some s =>
    let r := rmt_tx_wait_all_done w s.channel 0
    (decide (r.1 = ESP_ERR_TIMEOUT), r.2)

/-- The function `led_strip_wait`; `rmt_tx_wait_all_done` and `strip` are as in
`led_strip_busy`. -/
def led_strip_wait {ω : Type} (rmt_tx_wait_all_done : ω → Option Nat → Nat → esp_err_t × ω)
    (w : ω) (strip : Option led_strip_t) (timeout : Nat) : esp_err_t × ω :=
  match strip with
  | none => (ESP_ERR_INVALID_ARG, w)
  | some s => rmt_tx_wait_all_done w s.channel timeout

/-- The bytes of the pixel buffer of a strip (none for a null `buf`). -/
def buf_bytes (strip : led_strip_t) : List UInt8 :=
  match strip.buf with
  | some m => m.bytes
  | none => []

/-- The stores a strip has made outside its pixel buffer. -/
def buf_stray (strip : led_strip_t) : List (Nat × UInt8) :=
  match strip.buf with
  | some m => m.stray
  | none => []

/-- The bytes `led_strip_set_pixel` stores for one pixel, in the order of the stores: the
three colour channels in the colour order of the strip, then the luma of an RGBW strip. -/
def pixel_bytes (rgb_luma : rgb_t → UInt8) (order : color_order_t) (is_rgbw : Bool)
    (color : rgb_t) : List UInt8 :=
  (match order with
    | .ORDER_GRB => [color.g, color.r, color.b]
    | .ORDER_RGB => [color.r, color.g, color.b]) ++
  (if is_rgbw then [rgb_luma color] else [])

/-- The spec's reading of a range write: `led_strip_set_pixel (start + i) (data i)` is
called for `i = 0, 1, ..., len - 1`, in that order, each call on the strip the previous
call left. -/
def set_pixel_each (rgb_luma : rgb_t → UInt8) (strip : led_strip_t) (start len : Nat)
    (data : Nat → rgb_t) : led_strip_t :=
  (List.range len).foldl
    (fun s i => (led_strip_set_pixel rgb_luma s (start + i) (data i)).2) strip

/-! ## Concrete inputs -/

/-- A WS2812 strip of two RGB pixels with a zero-filled buffer. -/
def grb_strip_2 : led_strip_t :=
  { type := LED_STRIP_WS2812, is_rgbw := false, length := 2, gpio := 0, channel := none,
    encoder := none, buf := some { bytes := [0, 0, 0, 0, 0, 0], stray := [] } }


/-- A WS2812 strip of two RGBW pixels with a zero-filled buffer. -/
def rgbw_strip_2 : led_strip_t :=
  { type := LED_STRIP_WS2812, is_rgbw := true, length := 2, gpio := 0, channel := none,
    encoder := none, buf := some { bytes := [0, 0, 0, 0, 0, 0, 0, 0], stray := [] } }

/-- An environment in which every external call of `led_strip_init` succeeds. -/
def env_ok : init_env_t :=
  { calloc_ok := true, rmt_new_tx_channel := ESP_OK, channel := 0,
    encoder_env := { calloc_ok := true, rmt_new_bytes_encoder := ESP_OK,
                     rmt_new_copy_encoder := ESP_OK },
    rmt_enable := ESP_OK }

/-- A WS2812 strip of two RGB pixels before `led_strip_init`. -/
def grb_strip_new : led_strip_t :=
  { type := LED_STRIP_WS2812, is_rgbw := false, length := 2, gpio := 0, channel := none,
    encoder := none, buf := none }

/-- An environment in which `calloc` has no memory for the pixel buffer. -/
def env_no_mem : init_env_t := { env_ok with calloc_ok := false }

/-- A colour array whose entry `i` is `(i, i + 100, i + 200)`. -/
def ramp (i : Nat) : rgb_t :=
  { r := UInt8.ofNat i, g := UInt8.ofNat (i + 100), b := UInt8.ofNat (i + 200) }

/-- A luma function used on concrete inputs: the mean of the three channels. -/
def luma_mean (c : rgb_t) : UInt8 := UInt8.ofNat ((c.r.toNat + c.g.toNat + c.b.toNat) / 3)

/-- A drained slot with room for `K` pulse symbols. -/
def slot (K : Nat) : rmt_channel_t := { free := K, symbols := [] }

/-- The encoder of a WS2812 strip as `led_strip_encoder_init` creates it from the tables of
`led_strip_install`. -/
def ws2812_encoder : rmt_led_strip_encoder_t bytes_encoder_t Nat :=
  encoder_initial (install_item LED_STRIP_WS2812) (install_rst_item LED_STRIP_WS2812)

/-- The encoder `ws2812_encoder` in the phase `SendReset`. -/
def ws2812_encoder_reset_phase : rmt_led_strip_encoder_t bytes_encoder_t Nat :=
  { ws2812_encoder with state := 1 }

/-- The encoder `ws2812_encoder` paused in the data phase: the state after one invocation
on the byte `0xA5` with a slot of three symbols. -/
def ws2812_encoder_paused : rmt_led_strip_encoder_t bytes_encoder_t Nat :=
  (rmt_encode_led_strip bytes_encoder copy_encoder ws2812_encoder (slot 3) [0xA5]).encoder

/-- An encoder in the phase `SendData` whose data sub-encoder is `idle_encoder` and whose
reset sub-encoder is the copy encoder with a call counter at zero. -/
def idle_led : rmt_led_strip_encoder_t Unit (Nat × Nat) :=
  { bytes_encoder := (), copy_encoder := (0, 0), state := 0, reset_code := rmt_symbol_zero }

/-- The spec's reading of tick scaling: `d * R / 1e9` for `R` the tick resolution,
rounded to the nearest integer (a half rounds up). -/
def ticks_nearest (d : Nat) : Nat :=
  (2 * d * RMT_LED_STRIP_RESOLUTION_HZ + 1000000000) / (2 * 1000000000)

/-- The exact value `d * R / 1e9` for `R` the tick resolution, rounded down. -/
def ticks_floor (d : Nat) : Nat := d * RMT_LED_STRIP_RESOLUTION_HZ / 1000000000

/-- The properties of the invocations of one transmission, for a slot of capacity `K` and
the symbol sequence `syms` still to be sent: the returned counts add up to the number of
symbols, the symbols placed in the slot are `syms` in order, an invocation that leaves no
room in the slot reports buffer-full, an invocation that does not report complete reports
buffer-full, every count is the number of symbols placed and at most `K`, and complete is
reported by the last invocation and by no earlier one. -/
def session_ok (K : Nat) (syms : List rmt_symbol_word_t) (trace : List invocation_t) : Prop :=
  (trace.map (fun inv => inv.count)).sum = syms.length ∧
  (trace.map (fun inv => inv.symbols)).flatten = syms ∧
  (∀ inv ∈ trace, inv.free_after = 0 → inv.ret_state &&& RMT_ENCODING_MEM_FULL ≠ 0) ∧
  (∀ inv ∈ trace, inv.ret_state &&& RMT_ENCODING_COMPLETE = 0 →
    inv.ret_state &&& RMT_ENCODING_MEM_FULL ≠ 0) ∧
  (∀ inv ∈ trace, inv.count = inv.symbols.length ∧ inv.count ≤ K) ∧
  (∃ init last, trace = init ++ [last] ∧ last.ret_state &&& RMT_ENCODING_COMPLETE ≠ 0 ∧
    ∀ inv ∈ init, inv.ret_state &&& RMT_ENCODING_COMPLETE = 0)

/-! ## Lemmas on the pixel buffer -/

theorem led_params_some {t : Nat} (h : t < LED_STRIP_TYPE_MAX) : ∃ p, led_params[t]? = some p := by
  unfold LED_STRIP_TYPE_MAX at h
  interval_cases t <;> exact ⟨_, rfl⟩

theorem COLOR_SIZE_pos (s : led_strip_t) : 3 ≤ COLOR_SIZE s ∧ COLOR_SIZE s ≤ 4 := by
  unfold COLOR_SIZE; split <;> omega

theorem buf_store_in {m : pixel_mem_t} {i : Nat} (v : UInt8) (h : i < m.bytes.length) :
    buf_store m i v = { m with bytes := m.bytes.set i v } := by
  simp [buf_store, h]

theorem buf_store3 (m : pixel_mem_t) (i : Nat) (a b c : UInt8) (h : i + 2 < m.bytes.length) :
    buf_store (buf_store (buf_store m i a) (i + 1) b) (i + 2) c =
      { m with bytes := ((m.bytes.set i a).set (i + 1) b).set (i + 2) c } := by
  have h0 : i < m.bytes.length := by omega
  have h1 : i + 1 < m.bytes.length := by omega
  simp [buf_store, h0, h1, h]

theorem set3_getElem? (l : List UInt8) (i : Nat) (a b c : UInt8) (h : i + 2 < l.length)
    (j : Nat) :
    (((l.set i a).set (i + 1) b).set (i + 2) c)[j]? =
      if i ≤ j ∧ j < i + 3 then [a, b, c][j - i]? else l[j]? := by
  rcases (show j < i ∨ j = i ∨ j = i + 1 ∨ j = i + 2 ∨ i + 3 ≤ j by omega) with
    hj | hj | hj | hj | hj
  · have : ¬ (i ≤ j ∧ j < i + 3) := by omega
    simp only [List.getElem?_set, this, if_false]
    rw [if_neg (by omega), if_neg (by omega), if_neg (by omega)]
  · subst hj
    have h0 : j < l.length := by omega
    simp [List.getElem?_set, h0]
  · subst hj
    have h0 : i + 1 < l.length := by omega
    simp [List.getElem?_set, h0]
  · subst hj
    simp [List.getElem?_set, h]
  · have : ¬ (i ≤ j ∧ j < i + 3) := by omega
    simp only [List.getElem?_set, this, if_false]
    rw [if_neg (by omega), if_neg (by omega), if_neg (by omega)]

theorem set4_getElem? (l : List UInt8) (i : Nat) (a b c d : UInt8) (h : i + 3 < l.length)
    (j : Nat) :
    ((((l.set i a).set (i + 1) b).set (i + 2) c).set (i + 3) d)[j]? =
      if i ≤ j ∧ j < i + 4 then [a, b, c, d][j - i]? else l[j]? := by
  rw [List.getElem?_set, set3_getElem? l i a b c (by omega) j]
  rcases (show j < i ∨ j = i ∨ j = i + 1 ∨ j = i + 2 ∨ j = i + 3 ∨ i + 4 ≤ j by omega) with
    hj | hj | hj | hj | hj | hj
  · rw [if_neg (by omega), if_neg (by omega), if_neg (by omega)]
  · subst hj; simp
  · subst hj; simp
  · subst hj; simp
  · subst hj; simp [h]
  · rw [if_neg (by omega), if_neg (by omega), if_neg (by omega)]

theorem set_pixel_in_range (rgb_luma : rgb_t → UInt8) (s : led_strip_t) (num : Nat) (c : rgb_t)
    (h : strip_allocated s) (hn : num < s.length) :
    ∃ m p b, s.buf = some m ∧ led_params[s.type]? = some p ∧
      led_strip_set_pixel rgb_luma s num c = (ESP_OK, { s with buf := some { m with bytes := b } }) ∧
      b.length = m.bytes.length ∧
      ∀ j, b[j]? = if num * COLOR_SIZE s ≤ j ∧ j < num * COLOR_SIZE s + COLOR_SIZE s then
          (pixel_bytes rgb_luma p.order s.is_rgbw c)[j - num * COLOR_SIZE s]? else m.bytes[j]? := by
  obtain ⟨ht, hsz, m, hm, hlen⟩ := h
  obtain ⟨p, hp⟩ := led_params_some ht
  have hcs := COLOR_SIZE_pos s
  have hlt : num * COLOR_SIZE s + COLOR_SIZE s ≤ s.length * COLOR_SIZE s := by
    have : (num + 1) * COLOR_SIZE s ≤ s.length * COLOR_SIZE s := Nat.mul_le_mul_right _ hn
    rw [Nat.add_mul, Nat.one_mul] at this; exact this
  have hmod : (num * COLOR_SIZE s) % SIZE_T = num * COLOR_SIZE s := Nat.mod_eq_of_lt (by omega)
  have hmod1 : (num * COLOR_SIZE s + 1) % SIZE_T = num * COLOR_SIZE s + 1 :=
    Nat.mod_eq_of_lt (by omega)
  have hmod2 : (num * COLOR_SIZE s + 2) % SIZE_T = num * COLOR_SIZE s + 2 :=
    Nat.mod_eq_of_lt (by omega)
  have hmod3 : s.is_rgbw = true →
      (num * COLOR_SIZE s + 3) % SIZE_T = num * COLOR_SIZE s + 3 := by
    intro hw
    have : COLOR_SIZE s = 4 := by simp [COLOR_SIZE, hw]
    exact Nat.mod_eq_of_lt (by omega)
  refine ⟨m, p, ?_⟩
  simp only [led_strip_set_pixel, hm, hp, hmod, hmod1, hmod2, if_pos (Nat.le_of_lt hn)]
  have hcsz : COLOR_SIZE s = 3 + (if s.is_rgbw then 1 else 0) := rfl
  generalize COLOR_SIZE s = cs at *
  cases ho : p.order <;> cases hw : s.is_rgbw <;> simp only [hw] at hcsz hmod3 <;>
    simp only [Bool.false_eq_true, if_false, if_true, Nat.add_zero, forall_const] at hcsz hmod3 ⊢ <;>
    subst hcsz
  · rw [buf_store3 _ _ _ _ _ (by omega)]
    refine ⟨_, trivial, trivial, rfl, by simp, fun j => ?_⟩
    simpa [pixel_bytes] using set3_getElem? m.bytes (num * 3) _ _ _ (by omega) j
  · rw [hmod3, buf_store3 m (num * (3 + 1)) _ _ _ (by omega),
      buf_store_in _ (by simp; omega)]
    refine ⟨_, trivial, trivial, rfl, by simp, fun j => ?_⟩
    simpa [pixel_bytes] using set4_getElem? m.bytes (num * 4) _ _ _ _ (by omega) j
  · rw [buf_store3 _ _ _ _ _ (by omega)]
    refine ⟨_, trivial, trivial, rfl, by simp, fun j => ?_⟩
    simpa [pixel_bytes] using set3_getElem? m.bytes (num * 3) _ _ _ (by omega) j
  · rw [hmod3, buf_store3 m (num * (3 + 1)) _ _ _ (by omega),
      buf_store_in _ (by simp; omega)]
    refine ⟨_, trivial, trivial, rfl, by simp, fun j => ?_⟩
    simpa [pixel_bytes] using set4_getElem? m.bytes (num * 4) _ _ _ _ (by omega) j

theorem order_of_type {t : Nat} {p : led_params_t} (hp : led_params[t]? = some p) :
    ((t = LED_STRIP_WS2812 ∨ t = LED_STRIP_SK6812 ∨ t = LED_STRIP_PI33TB) →
      p.order = .ORDER_GRB) ∧
    ((t = LED_STRIP_APA106 ∨ t = LED_STRIP_SM16703) → p.order = .ORDER_RGB) := by
  constructor
  · rintro (h | h | h) <;> subst h <;>
      simp [led_params, LED_STRIP_WS2812, LED_STRIP_SK6812, LED_STRIP_PI33TB] at hp <;>
      subst hp <;> rfl
  · rintro (h | h) <;> subst h <;>
      simp [led_params, LED_STRIP_APA106, LED_STRIP_SM16703] at hp <;>
      subst hp <;> rfl

theorem set_pixel_div (rgb_luma : rgb_t → UInt8) (s : led_strip_t) (num : Nat) (c : rgb_t)
    (h : strip_allocated s) (hn : num < s.length) :
    ∃ p, led_params[s.type]? = some p ∧
      (led_strip_set_pixel rgb_luma s num c).1 = ESP_OK ∧
      strip_allocated (led_strip_set_pixel rgb_luma s num c).2 ∧
      (led_strip_set_pixel rgb_luma s num c).2.type = s.type ∧
      (led_strip_set_pixel rgb_luma s num c).2.is_rgbw = s.is_rgbw ∧
      (led_strip_set_pixel rgb_luma s num c).2.length = s.length ∧
      buf_stray (led_strip_set_pixel rgb_luma s num c).2 = buf_stray s ∧
      (buf_bytes (led_strip_set_pixel rgb_luma s num c).2).length = (buf_bytes s).length ∧
      ∀ j, (buf_bytes (led_strip_set_pixel rgb_luma s num c).2)[j]? =
        if j / COLOR_SIZE s = num then
          (pixel_bytes rgb_luma p.order s.is_rgbw c)[j % COLOR_SIZE s]?
        else (buf_bytes s)[j]? := by
  obtain ⟨m, p, b, hm, hp, hset, hlen, hget⟩ := set_pixel_in_range rgb_luma s num c h hn
  obtain ⟨ht, hsz, m0, hm0, hlen0⟩ := h
  rw [hm] at hm0; cases hm0
  refine ⟨p, hp, ?_⟩
  rw [hset]
  simp only [buf_bytes, buf_stray, hm]
  refine ⟨trivial, ⟨ht, hsz, _, rfl, by rw [hlen]; exact hlen0⟩, trivial, trivial, trivial,
    trivial, hlen, fun j => ?_⟩
  rw [hget]
  have hpos : 0 < COLOR_SIZE s := by have := COLOR_SIZE_pos s; omega
  have hdm := Nat.div_add_mod j (COLOR_SIZE s)
  have hml := Nat.mod_lt j hpos
  by_cases hq : j / COLOR_SIZE s = num
  · have hj : j = num * COLOR_SIZE s + j % COLOR_SIZE s := by
      rw [← hq, Nat.mul_comm]; exact hdm.symm
    rw [if_pos hq, if_pos (by omega)]
    congr 1; omega
  · rw [if_neg hq, if_neg]
    rintro ⟨h1, h2⟩
    apply hq
    have h3 : j < (num + 1) * COLOR_SIZE s := by rw [Nat.add_mul]; omega
    have := Nat.div_lt_of_lt_mul (Nat.mul_comm _ _ ▸ h3)
    have := (Nat.le_div_iff_mul_le hpos).2 h1
    omega

theorem COLOR_SIZE_congr {s t : led_strip_t} (h : t.is_rgbw = s.is_rgbw) :
    COLOR_SIZE t = COLOR_SIZE s := by
  simp [COLOR_SIZE, h]

theorem length_lt_SIZE_T {s : led_strip_t} (h : strip_allocated s) : s.length < SIZE_T := by
  obtain ⟨_, hsz, _⟩ := h
  have := COLOR_SIZE_pos s
  calc s.length ≤ s.length * COLOR_SIZE s := Nat.le_mul_of_pos_right _ (by omega)
    _ < SIZE_T := hsz

/-- The loop of `led_strip_set_pixels` on indices inside the strip never fails: it is the
left fold of the `led_strip_set_pixel` calls over the counters `i, i + 1, ...`. -/
theorem set_pixels_loop_eq (rgb_luma : rgb_t → UInt8) (start : Nat) (data : Nat → rgb_t) :
    ∀ (n i : Nat) (s : led_strip_t), strip_allocated s → start + i + n ≤ s.length →
      set_pixels_loop rgb_luma start data n i s =
        (ESP_OK, (List.range' i n).foldl
          (fun s k => (led_strip_set_pixel rgb_luma s (start + k) (data k)).2) s) := by
  intro n
  induction n with
  | zero => intro i s _ _; rfl
  | succ n ih =>
    intro i s hs hle
    have hlt := length_lt_SIZE_T hs
    have hmod : (i + start) % SIZE_T = start + i := by
      rw [Nat.mod_eq_of_lt (by omega)]; omega
    obtain ⟨p, _, hok, hs1, _, _, hl1, _⟩ :=
      set_pixel_div rgb_luma s (start + i) (data i) hs (by omega)
    simp only [set_pixels_loop, hmod, hok, ne_eq, not_true_eq_false, if_false,
      List.range'_succ, List.foldl_cons]
    exact ih (i + 1) _ hs1 (by rw [hl1]; omega)

/-- The loop of `led_strip_fill` on indices inside the strip never fails: it is the left
fold of the `led_strip_set_pixel` calls over the indices `i, i + 1, ...`. -/
theorem fill_loop_eq (rgb_luma : rgb_t → UInt8) (c : rgb_t) :
    ∀ (n i : Nat) (s : led_strip_t), strip_allocated s → i + n ≤ s.length →
      fill_loop rgb_luma c n i s =
        (ESP_OK, (List.range' i n).foldl
          (fun s k => (led_strip_set_pixel rgb_luma s k c).2) s) := by
  intro n
  induction n with
  | zero => intro i s _ _; rfl
  | succ n ih =>
    intro i s hs hle
    obtain ⟨p, _, hok, hs1, _, _, hl1, _⟩ := set_pixel_div rgb_luma s i c hs (by omega)
    simp only [fill_loop, hok, ne_eq, not_true_eq_false, if_false,
      List.range'_succ, List.foldl_cons]
    exact ih (i + 1) _ hs1 (by rw [hl1]; omega)

/-- Content of the buffer after `led_strip_set_pixel` was applied with one colour to the
indices `i, ..., i + n - 1`: those pixels hold the pixel bytes, the rest is as before. -/
theorem fill_fold_get (rgb_luma : rgb_t → UInt8) (c : rgb_t) (p : led_params_t) :
    ∀ (n i : Nat) (s : led_strip_t), strip_allocated s → led_params[s.type]? = some p →
      i + n ≤ s.length →
      buf_stray ((List.range' i n).foldl
          (fun s k => (led_strip_set_pixel rgb_luma s k c).2) s) = buf_stray s ∧
      (buf_bytes ((List.range' i n).foldl
          (fun s k => (led_strip_set_pixel rgb_luma s k c).2) s)).length =
        (buf_bytes s).length ∧
      ∀ j, (buf_bytes ((List.range' i n).foldl
          (fun s k => (led_strip_set_pixel rgb_luma s k c).2) s))[j]? =
        if i ≤ j / COLOR_SIZE s ∧ j / COLOR_SIZE s < i + n then
          (pixel_bytes rgb_luma p.order s.is_rgbw c)[j % COLOR_SIZE s]?
        else (buf_bytes s)[j]? := by
  intro n
  induction n with
  | zero =>
    intro i s _ _ _
    refine ⟨rfl, rfl, fun j => ?_⟩
    rw [if_neg (by omega)]; rfl
  | succ n ih =>
    intro i s hs hp hle
    obtain ⟨p1, hp1, _, hs1, ht1, hw1, hl1, hst1, hlen1, hget1⟩ :=
      set_pixel_div rgb_luma s i c hs (by omega)
    rw [hp] at hp1; cases hp1
    simp only [List.range'_succ, List.foldl_cons]
    obtain ⟨hst, hlen, hget⟩ := ih (i + 1) _ hs1 (by rw [ht1]; exact hp) (by rw [hl1]; omega)
    refine ⟨hst.trans hst1, hlen.trans hlen1, fun j => ?_⟩
    rw [hget, hget1, COLOR_SIZE_congr hw1, hw1]
    by_cases h1 : i + 1 ≤ j / COLOR_SIZE s ∧ j / COLOR_SIZE s < i + 1 + n
    · rw [if_pos h1, if_pos (by omega)]
    · rw [if_neg h1]
      by_cases h2 : j / COLOR_SIZE s = i
      · rw [if_pos h2, if_pos (by omega)]
      · rw [if_neg h2, if_neg (by omega)]

theorem range_check {s : led_strip_t} {start len : Nat} (h : strip_allocated s)
    (hlen : 1 ≤ len) (hr : start + len ≤ s.length) :
    (s.buf.isSome = true ∧ len ≠ 0 ∧ (start + len) % SIZE_T ≤ s.length) ∧
      (start + len) % SIZE_T = start + len := by
  have hlt := length_lt_SIZE_T h
  have hmod : (start + len) % SIZE_T = start + len := Nat.mod_eq_of_lt (by omega)
  obtain ⟨_, _, m, hm, _⟩ := h
  refine ⟨⟨by simp [hm], by omega, by omega⟩, hmod⟩

theorem set_pixels_eq (rgb_luma : rgb_t → UInt8) (s : led_strip_t) (start len : Nat)
    (data : Nat → rgb_t) (h : strip_allocated s) (hlen : 1 ≤ len)
    (hr : start + len ≤ s.length) :
    led_strip_set_pixels rgb_luma s start len data =
      (ESP_OK, set_pixel_each rgb_luma s start len data) := by
  unfold led_strip_set_pixels set_pixel_each
  rw [if_pos (range_check h hlen hr).1, set_pixels_loop_eq rgb_luma start data len 0 s h (by omega),
    List.range_eq_range']

theorem fill_eq (rgb_luma : rgb_t → UInt8) (s : led_strip_t) (start len : Nat)
    (c : rgb_t) (h : strip_allocated s) (hlen : 1 ≤ len) (hr : start + len ≤ s.length) :
    led_strip_fill rgb_luma s start len c =
      (ESP_OK, (List.range' start len).foldl
          (fun s k => (led_strip_set_pixel rgb_luma s k c).2) s) := by
  unfold led_strip_fill
  rw [if_pos (range_check h hlen hr).1, (range_check h hlen hr).2, Nat.add_sub_cancel_left,
    fill_loop_eq rgb_luma c len start s h hr]

theorem fill_fold_each (rgb_luma : rgb_t → UInt8) (s : led_strip_t) (start len : Nat)
    (c : rgb_t) :
    (List.range' start len).foldl (fun s k => (led_strip_set_pixel rgb_luma s k c).2) s =
      set_pixel_each rgb_luma s start len (fun _ => c) := by
  unfold set_pixel_each
  rw [List.range'_eq_map_range, List.foldl_map]

theorem calloc_some {ok : Bool} {n sz : Nat} {m : pixel_mem_t} (h : calloc ok n sz = some m) :
    n * sz < SIZE_T ∧ m.bytes = List.replicate (n * sz) 0 ∧ m.stray = [] := by
  unfold calloc at h
  split at h
  · rename_i hc
    cases h
    exact ⟨hc.2, rfl, rfl⟩
  · cases h

theorem grb_strip_2_allocated : strip_allocated grb_strip_2 :=
  ⟨by decide, by decide, _, rfl, rfl⟩

theorem rgbw_strip_2_allocated : strip_allocated rgbw_strip_2 :=
  ⟨by decide, by decide, _, rfl, rfl⟩

/-! ## Lemmas on the encoder -/

theorem byte_symbols_length (config : rmt_bytes_encoder_config_t) (b : UInt8) :
    (byte_symbols config b).length = 8 := by
  simp [byte_symbols]

theorem data_symbols_length (config : rmt_bytes_encoder_config_t) (data : List UInt8) :
    (data_symbols config data).length = data.length * 8 := by
  induction data with
  | nil => rfl
  | cons b t ih =>
    simp only [data_symbols, List.map_cons, List.flatten_cons, List.length_append,
      byte_symbols_length, List.length_cons] at ih ⊢
    rw [ih]; omega

theorem step_data_partial (cfg : rmt_bytes_encoder_config_t) (rst : rmt_symbol_word_t)
    (data : List UInt8) (K p : Nat) (hK : K < SIZE_T)
    (hlt : K < (data_symbols cfg data).length - p) :
    rmt_encode_led_strip bytes_encoder copy_encoder
        { bytes_encoder := { config := cfg, cursor := p }, copy_encoder := 0, state := 0,
          reset_code := rst } { free := K, symbols := [] } data =
      { encoder := { bytes_encoder := { config := cfg, cursor := p + K }, copy_encoder := 0,
                     state := 0, reset_code := rst },
        channel := { free := 0, symbols := ((data_symbols cfg data).drop p).take K },
        encoded_symbols := K, ret_state := RMT_ENCODING_MEM_FULL } := by
  have hmin : min ((data_symbols cfg data).length - p) K = K := by omega
  have hnlt : ¬ ((data_symbols cfg data).length - p < K) := by omega
  simp [rmt_encode_led_strip, bytes_encoder, stream_encode, hlt, hmin, hnlt,
    RMT_ENCODING_COMPLETE, RMT_ENCODING_MEM_FULL, RMT_ENCODING_RESET, Nat.mod_eq_of_lt hK]

theorem step_data_exact (cfg : rmt_bytes_encoder_config_t) (rst : rmt_symbol_word_t)
    (data : List UInt8) (K p : Nat) (hK : K < SIZE_T)
    (heq : K = (data_symbols cfg data).length - p) :
    rmt_encode_led_strip bytes_encoder copy_encoder
        { bytes_encoder := { config := cfg, cursor := p }, copy_encoder := 0, state := 0,
          reset_code := rst } { free := K, symbols := [] } data =
      { encoder := { bytes_encoder := { config := cfg, cursor := 0 }, copy_encoder := 0,
                     state := 1, reset_code := rst },
        channel := { free := 0, symbols := (data_symbols cfg data).drop p },
        encoded_symbols := K, ret_state := RMT_ENCODING_MEM_FULL } := by
  have htake : List.take K (List.drop p (data_symbols cfg data)) =
      List.drop p (data_symbols cfg data) :=
    List.take_of_length_le (by rw [List.length_drop]; omega)
  simp [rmt_encode_led_strip, bytes_encoder, stream_encode, ← heq, htake,
    RMT_ENCODING_COMPLETE, RMT_ENCODING_MEM_FULL, RMT_ENCODING_RESET, Nat.mod_eq_of_lt hK]

theorem step_data_all (cfg : rmt_bytes_encoder_config_t) (rst : rmt_symbol_word_t)
    (data : List UInt8) (K p : Nat) (hK : K < SIZE_T)
    (hgt : (data_symbols cfg data).length - p < K) :
    rmt_encode_led_strip bytes_encoder copy_encoder
        { bytes_encoder := { config := cfg, cursor := p }, copy_encoder := 0, state := 0,
          reset_code := rst } { free := K, symbols := [] } data =
      { encoder := { bytes_encoder := { config := cfg, cursor := 0 }, copy_encoder := 0,
                     state := 0, reset_code := rst },
        channel := { free := K - ((data_symbols cfg data).length - p) - 1,
                     symbols := (data_symbols cfg data).drop p ++ [rst] },
        encoded_symbols := (data_symbols cfg data).length - p + 1,
        ret_state := if K - ((data_symbols cfg data).length - p) ≤ 1 then
            RMT_ENCODING_COMPLETE ||| RMT_ENCODING_MEM_FULL
          else RMT_ENCODING_COMPLETE } := by
  have htake : List.take ((data_symbols cfg data).length - p)
      (List.drop p (data_symbols cfg data)) = List.drop p (data_symbols cfg data) :=
    List.take_of_length_le (by rw [List.length_drop])
  generalize hw : (data_symbols cfg data).length - p = w at *
  obtain ⟨e, rfl⟩ : ∃ e, K = w + 1 + e := ⟨K - w - 1, by omega⟩
  have hmin : min w (w + 1 + e) = w := by omega
  have hnlt : ¬ (w + 1 + e < w) := by omega
  have hlt : w < w + 1 + e := by omega
  have hsub : w + 1 + e - w = 1 + e := by omega
  have hsub2 : 1 + e - 1 = e := by omega
  have hmin1 : min 1 (1 + e) = 1 := by omega
  have hn0 : ¬ (1 + e < 1) := by omega
  have hm1 : w % SIZE_T = w := Nat.mod_eq_of_lt (by omega)
  have hm2 : (w + 1) % SIZE_T = w + 1 := Nat.mod_eq_of_lt (by omega)
  simp only [rmt_encode_led_strip, encode_case_1, bytes_encoder, copy_encoder, stream_encode,
    hw, hmin, hnlt, hlt, htake, hsub, hsub2, hmin1, hn0, hm1, hm2, if_true, if_false,
    Nat.zero_add, List.nil_append, List.length_singleton, List.drop_zero, Nat.sub_zero,
    List.length_cons, List.length_nil, List.take_succ_cons, List.take_zero]
  rcases Nat.eq_zero_or_pos e with he | he
  · subst he
    simp [RMT_ENCODING_COMPLETE, RMT_ENCODING_MEM_FULL, RMT_ENCODING_RESET, hm1, hm2]
  · have h1 : 1 < 1 + e := by omega
    have h2 : ¬ (1 + e ≤ 1) := by omega
    simp [RMT_ENCODING_COMPLETE, RMT_ENCODING_MEM_FULL, RMT_ENCODING_RESET, hm1, hm2, h1, h2]

theorem step_reset (cfg : rmt_bytes_encoder_config_t) (rst : rmt_symbol_word_t)
    (data : List UInt8) (K : Nat) (hK1 : 1 ≤ K) :
    rmt_encode_led_strip bytes_encoder copy_encoder
        { bytes_encoder := { config := cfg, cursor := 0 }, copy_encoder := 0, state := 1,
          reset_code := rst } { free := K, symbols := [] } data =
      { encoder := { bytes_encoder := { config := cfg, cursor := 0 }, copy_encoder := 0,
                     state := 0, reset_code := rst },
        channel := { free := K - 1, symbols := [rst] },
        encoded_symbols := 1,
        ret_state := if K ≤ 1 then RMT_ENCODING_COMPLETE ||| RMT_ENCODING_MEM_FULL
          else RMT_ENCODING_COMPLETE } := by
  have hm : (1 : Nat) % SIZE_T = 1 := by decide
  rcases Nat.eq_or_lt_of_le hK1 with he | he
  · subst he
    simp [rmt_encode_led_strip, encode_case_1, copy_encoder, stream_encode,
      hm, RMT_ENCODING_COMPLETE, RMT_ENCODING_MEM_FULL, RMT_ENCODING_RESET]
  · have hmin1 : min 1 K = 1 := by omega
    have hn0 : ¬ (K < 1) := by omega
    have h2 : ¬ (K ≤ 1) := by omega
    simp [rmt_encode_led_strip, encode_case_1, copy_encoder, stream_encode,
      hmin1, hn0, he, h2, hm, RMT_ENCODING_COMPLETE, RMT_ENCODING_MEM_FULL,
      RMT_ENCODING_RESET]

theorem session_ok_single (K : Nat) (inv : invocation_t)
    (hc : inv.count = inv.symbols.length) (hK : inv.count ≤ K)
    (hfull : inv.free_after = 0 → inv.ret_state &&& RMT_ENCODING_MEM_FULL ≠ 0)
    (hdone : inv.ret_state &&& RMT_ENCODING_COMPLETE ≠ 0) :
    session_ok K inv.symbols [inv] := by
  refine ⟨by simp [hc], by simp, ?_, ?_, ?_, [], inv, rfl, hdone, by simp⟩
  · intro i hi; rw [List.mem_singleton] at hi; subst hi; exact hfull
  · intro i hi h0; rw [List.mem_singleton] at hi; subst hi; exact absurd h0 hdone
  · intro i hi; rw [List.mem_singleton] at hi; subst hi; exact ⟨hc, hK⟩

theorem session_ok_cons (K : Nat) (inv : invocation_t) (syms : List rmt_symbol_word_t)
    (rest : List invocation_t) (hc : inv.count = inv.symbols.length) (hK : inv.count ≤ K)
    (hfull : inv.ret_state &&& RMT_ENCODING_MEM_FULL ≠ 0)
    (hnot : inv.ret_state &&& RMT_ENCODING_COMPLETE = 0)
    (h : session_ok K syms rest) :
    session_ok K (inv.symbols ++ syms) (inv :: rest) := by
  obtain ⟨h1, h2, h3, h4, h5, init, last, h6, h7, h8⟩ := h
  refine ⟨by simp [h1, hc], by simp [h2], ?_, ?_, ?_, inv :: init, last, by rw [h6]; rfl, h7, ?_⟩
  · intro i hi
    rcases List.mem_cons.1 hi with rfl | hi
    · exact fun _ => hfull
    · exact h3 i hi
  · intro i hi
    rcases List.mem_cons.1 hi with rfl | hi
    · exact fun _ => hfull
    · exact h4 i hi
  · intro i hi
    rcases List.mem_cons.1 hi with rfl | hi
    · exact ⟨hc, hK⟩
    · exact h5 i hi
  · intro i hi
    rcases List.mem_cons.1 hi with rfl | hi
    · exact hnot
    · exact h8 i hi

theorem session_reset (cfg : rmt_bytes_encoder_config_t) (rst : rmt_symbol_word_t)
    (data : List UInt8) (K : Nat) (hK1 : 1 ≤ K) (fuel : Nat) :
    ∃ trace, transmit_loop K data (fuel + 1)
        { bytes_encoder := { config := cfg, cursor := 0 }, copy_encoder := 0, state := 1,
          reset_code := rst } = some (trace, encoder_initial cfg rst) ∧
      session_ok K [rst] trace ∧ trace.length = 1 := by
  have hdone : (if K ≤ 1 then RMT_ENCODING_COMPLETE ||| RMT_ENCODING_MEM_FULL
      else RMT_ENCODING_COMPLETE) &&& RMT_ENCODING_COMPLETE ≠ 0 := by
    split <;> decide
  refine ⟨_, ?_, session_ok_single K
    { symbols := [rst], count := 1,
      ret_state := if K ≤ 1 then RMT_ENCODING_COMPLETE ||| RMT_ENCODING_MEM_FULL
        else RMT_ENCODING_COMPLETE,
      free_after := K - 1 } rfl hK1 ?_ hdone, rfl⟩
  · simp only [transmit_loop, step_reset cfg rst data K hK1]
    rw [if_pos hdone]; rfl
  · intro h0
    have : K ≤ 1 := by simp only at h0; omega
    simp only [if_pos this]; decide

theorem session_data (cfg : rmt_bytes_encoder_config_t) (rst : rmt_symbol_word_t)
    (data : List UInt8) (K : Nat) (hK1 : 1 ≤ K) (hK : K < SIZE_T) :
    ∀ fuel p, p < (data_symbols cfg data).length →
      (data_symbols cfg data).length - p + 1 ≤ fuel →
      ∃ trace, transmit_loop K data fuel
          { bytes_encoder := { config := cfg, cursor := p }, copy_encoder := 0, state := 0,
            reset_code := rst } = some (trace, encoder_initial cfg rst) ∧
        session_ok K ((data_symbols cfg data).drop p ++ [rst]) trace ∧
        trace.length ≤ (data_symbols cfg data).length - p + 1 := by
  intro fuel
  induction fuel with
  | zero => intro p _ h; omega
  | succ fuel ih =>
    intro p hp hfuel
    have hfull2 : RMT_ENCODING_MEM_FULL &&& RMT_ENCODING_MEM_FULL ≠ 0 := by decide
    have hnot2 : RMT_ENCODING_MEM_FULL &&& RMT_ENCODING_COMPLETE = 0 := by decide
    rcases Nat.lt_trichotomy K ((data_symbols cfg data).length - p) with hlt | heq | hgt
    · obtain ⟨rest, hrest, hok, hlen⟩ := ih (p + K) (by omega) (by omega)
      refine ⟨invocation_t.mk (((data_symbols cfg data).drop p).take K) K
        RMT_ENCODING_MEM_FULL 0 :: rest, ?_, ?_, ?_⟩
      · simp only [transmit_loop, step_data_partial cfg rst data K p hK hlt]
        rw [if_neg (by rw [hnot2]; exact fun h => h rfl), hrest]
      · have := session_ok_cons K
          { symbols := ((data_symbols cfg data).drop p).take K, count := K,
            ret_state := RMT_ENCODING_MEM_FULL, free_after := 0 }
          ((data_symbols cfg data).drop (p + K) ++ [rst]) rest
          (by simp only [List.length_take, List.length_drop]; omega) (Nat.le_refl K)
          hfull2 hnot2 hok
        simp only [← List.append_assoc] at this
        rw [← List.drop_drop, List.take_append_drop] at this
        exact this
      · simp only [List.length_cons]; omega
    · cases fuel with
      | zero => omega
      | succ fuel =>
        obtain ⟨rest, hrest, hok, hlen⟩ := session_reset cfg rst data K hK1 fuel
        refine ⟨invocation_t.mk ((data_symbols cfg data).drop p) K
          RMT_ENCODING_MEM_FULL 0 :: rest, ?_, ?_, ?_⟩
        · rw [transmit_loop]
          simp only [step_data_exact cfg rst data K p hK heq]
          rw [if_neg (by rw [hnot2]; exact fun h => h rfl), hrest]
        · exact session_ok_cons K
            { symbols := (data_symbols cfg data).drop p, count := K,
              ret_state := RMT_ENCODING_MEM_FULL, free_after := 0 }
            [rst] rest (by simp only [List.length_drop]; omega) (Nat.le_refl K)
            hfull2 hnot2 hok
        · simp only [List.length_cons]; omega
    · have hdone : (if K - ((data_symbols cfg data).length - p) ≤ 1 then
          RMT_ENCODING_COMPLETE ||| RMT_ENCODING_MEM_FULL
          else RMT_ENCODING_COMPLETE) &&& RMT_ENCODING_COMPLETE ≠ 0 := by
        split <;> decide
      refine ⟨_, ?_, session_ok_single K
        { symbols := (data_symbols cfg data).drop p ++ [rst],
          count := (data_symbols cfg data).length - p + 1,
          ret_state := if K - ((data_symbols cfg data).length - p) ≤ 1 then
            RMT_ENCODING_COMPLETE ||| RMT_ENCODING_MEM_FULL else RMT_ENCODING_COMPLETE,
          free_after := K - ((data_symbols cfg data).length - p) - 1 }
        (by simp) (by simp only; omega) ?_ hdone, by simp⟩
      · simp only [transmit_loop, step_data_all cfg rst data K p hK hgt]
        rw [if_pos hdone]; rfl
      · intro h0
        have : K - ((data_symbols cfg data).length - p) ≤ 1 := by simp only at h0; omega
        simp only [if_pos this]; decide

/-! ## Lemmas on single invocations of the encoder -/

/-- The effect of the code from `case 1:` on, entered with `state` zero: the copy
sub-encoder is called once with the reset code, and its status decides the phase and the
two flags of the returned status. -/
theorem encode_case_1_spec {σb σc : Type} (C : rmt_encoder_t σc (List rmt_symbol_word_t))
    (led_encoder : rmt_led_strip_encoder_t σb σc) (channel : rmt_channel_t) (n : Nat)
    (rC : encode_result_t σc)
    (hC : C.encode led_encoder.copy_encoder channel [led_encoder.reset_code] = rC) :
    (encode_case_1 C led_encoder channel n RMT_ENCODING_RESET).encoder.bytes_encoder =
      led_encoder.bytes_encoder ∧
    (encode_case_1 C led_encoder channel n RMT_ENCODING_RESET).encoder.copy_encoder =
      rC.encoder ∧
    (encode_case_1 C led_encoder channel n RMT_ENCODING_RESET).encoder.reset_code =
      led_encoder.reset_code ∧
    (encode_case_1 C led_encoder channel n RMT_ENCODING_RESET).channel = rC.channel ∧
    (encode_case_1 C led_encoder channel n RMT_ENCODING_RESET).encoded_symbols =
      (n + rC.count) % SIZE_T ∧
    (rC.state &&& RMT_ENCODING_COMPLETE ≠ 0 →
      (encode_case_1 C led_encoder channel n RMT_ENCODING_RESET).encoder.state = 0 ∧
      (encode_case_1 C led_encoder channel n RMT_ENCODING_RESET).ret_state &&&
        RMT_ENCODING_COMPLETE ≠ 0) ∧
    (rC.state &&& RMT_ENCODING_COMPLETE = 0 →
      (encode_case_1 C led_encoder channel n RMT_ENCODING_RESET).encoder.state =
        led_encoder.state ∧
      (encode_case_1 C led_encoder channel n RMT_ENCODING_RESET).ret_state &&&
        RMT_ENCODING_COMPLETE = 0) ∧
    (rC.state &&& RMT_ENCODING_MEM_FULL ≠ 0 →
      (encode_case_1 C led_encoder channel n RMT_ENCODING_RESET).ret_state &&&
        RMT_ENCODING_MEM_FULL ≠ 0) ∧
    (rC.state &&& RMT_ENCODING_MEM_FULL = 0 →
      (encode_case_1 C led_encoder channel n RMT_ENCODING_RESET).ret_state &&&
        RMT_ENCODING_MEM_FULL = 0) := by
  subst hC
  by_cases hc : (C.encode led_encoder.copy_encoder channel [led_encoder.reset_code]).state
      &&& RMT_ENCODING_COMPLETE = 0 <;>
  by_cases hf : (C.encode led_encoder.copy_encoder channel [led_encoder.reset_code]).state
      &&& RMT_ENCODING_MEM_FULL = 0 <;>
  simp only [encode_case_1, hc, hf, ne_eq, not_true_eq_false, not_false_eq_true, if_true,
    if_false, true_and, and_true, and_self, imp_self, false_implies, implies_true,
    forall_true_left] <;>
  decide

/-- After an invocation of `rmt_encode_led_strip` whose returned status contains complete,
the phase is `SendData`, whatever the phase was before. -/
theorem complete_returns_to_send_data {σb σc : Type} (B : rmt_encoder_t σb (List UInt8))
    (C : rmt_encoder_t σc (List rmt_symbol_word_t))
    (led_encoder : rmt_led_strip_encoder_t σb σc) (channel : rmt_channel_t)
    (data : List UInt8)
    (h : (rmt_encode_led_strip B C led_encoder channel data).ret_state &&&
      RMT_ENCODING_COMPLETE ≠ 0) :
    (rmt_encode_led_strip B C led_encoder channel data).encoder.state = 0 := by
  have key : ∀ (l : rmt_led_strip_encoder_t σb σc) (ch : rmt_channel_t) (n : Nat),
      (encode_case_1 C l ch n RMT_ENCODING_RESET).ret_state &&& RMT_ENCODING_COMPLETE ≠ 0 →
      (encode_case_1 C l ch n RMT_ENCODING_RESET).encoder.state = 0 := by
    intro l ch n hne
    obtain ⟨_, _, _, _, _, h6, h7, _, _⟩ := encode_case_1_spec C l ch n _ rfl
    by_cases hcc : (C.encode l.copy_encoder ch [l.reset_code]).state &&&
        RMT_ENCODING_COMPLETE = 0
    · exact absurd (h7 hcc).2 hne
    · exact (h6 hcc).1
  by_cases h0 : led_encoder.state = 0
  · by_cases hfull : (B.encode led_encoder.bytes_encoder channel data).state &&&
        RMT_ENCODING_MEM_FULL ≠ 0
    · have hr : (rmt_encode_led_strip B C led_encoder channel data).ret_state =
          RMT_ENCODING_RESET ||| RMT_ENCODING_MEM_FULL := by
        simp only [rmt_encode_led_strip, h0, if_true]
        rw [if_pos hfull]
      rw [hr] at h
      exact absurd (by decide) h
    · simp only [rmt_encode_led_strip, h0, if_true] at h ⊢
      rw [if_neg hfull] at h ⊢
      exact key _ _ _ h
  · by_cases h1 : led_encoder.state = 1
    · have hr : rmt_encode_led_strip B C led_encoder channel data =
          encode_case_1 C led_encoder channel 0 RMT_ENCODING_RESET := by
        unfold rmt_encode_led_strip
        rw [if_neg h0, if_pos h1]
      rw [hr] at h ⊢
      exact key _ _ _ h
    · have hr : (rmt_encode_led_strip B C led_encoder channel data).ret_state =
          RMT_ENCODING_RESET := by
        unfold rmt_encode_led_strip
        rw [if_neg h0, if_neg h1]
      rw [hr] at h
      exact absurd (by decide) h

/-- One invocation of `rmt_encode_led_strip` keeps the reset code, and leaves each
sub-encoder either untouched or as one call of its `encode` leaves it. -/
theorem encode_step_sub {σb σc : Type} (B : rmt_encoder_t σb (List UInt8))
    (C : rmt_encoder_t σc (List rmt_symbol_word_t))
    (l : rmt_led_strip_encoder_t σb σc) (ch : rmt_channel_t) (d : List UInt8) :
    (rmt_encode_led_strip B C l ch d).encoder.reset_code = l.reset_code ∧
    ((rmt_encode_led_strip B C l ch d).encoder.bytes_encoder = l.bytes_encoder ∨
      (rmt_encode_led_strip B C l ch d).encoder.bytes_encoder =
        (B.encode l.bytes_encoder ch d).encoder) ∧
    ((rmt_encode_led_strip B C l ch d).encoder.copy_encoder = l.copy_encoder ∨
      ∃ ch2, (rmt_encode_led_strip B C l ch d).encoder.copy_encoder =
        (C.encode l.copy_encoder ch2 [l.reset_code]).encoder) := by
  by_cases h0 : l.state = 0
  · by_cases hfull : (B.encode l.bytes_encoder ch d).state &&& RMT_ENCODING_MEM_FULL ≠ 0
    · simp only [rmt_encode_led_strip, h0, if_true]
      rw [if_pos hfull]
      refine ⟨?_, Or.inr ?_, Or.inl ?_⟩ <;> simp only <;> split_ifs <;> rfl
    · simp only [rmt_encode_led_strip, h0, if_true]
      rw [if_neg hfull]
      by_cases hc : (B.encode l.bytes_encoder ch d).state &&& RMT_ENCODING_COMPLETE ≠ 0
      · rw [if_pos hc]
        exact ⟨(encode_case_1_spec C _ _ _ _ rfl).2.2.1,
          Or.inr (encode_case_1_spec C _ _ _ _ rfl).1,
          Or.inr ⟨_, (encode_case_1_spec C _ _ _ _ rfl).2.1⟩⟩
      · rw [if_neg hc]
        exact ⟨(encode_case_1_spec C _ _ _ _ rfl).2.2.1,
          Or.inr (encode_case_1_spec C _ _ _ _ rfl).1,
          Or.inr ⟨_, (encode_case_1_spec C _ _ _ _ rfl).2.1⟩⟩
  · by_cases h1 : l.state = 1
    · unfold rmt_encode_led_strip
      rw [if_neg h0, if_pos h1]
      obtain ⟨h1, h2, h3, _⟩ := encode_case_1_spec C l ch 0 _ rfl
      exact ⟨h3, Or.inl h1, Or.inr ⟨_, h2⟩⟩
    · unfold rmt_encode_led_strip
      rw [if_neg h0, if_neg h1]
      exact ⟨rfl, Or.inl rfl, Or.inl rfl⟩

/-- In a reachable encoder state both sub-encoders are in reachable states of their own,
and the reset code is the one of the fresh encoder. -/
theorem led_reachable_sub {σb σc : Type} (B : rmt_encoder_t σb (List UInt8))
    (C : rmt_encoder_t σc (List rmt_symbol_word_t))
    (fresh l : rmt_led_strip_encoder_t σb σc) (h : led_reachable B C fresh l) :
    sub_reachable B fresh.bytes_encoder l.bytes_encoder ∧
    sub_reachable C fresh.copy_encoder l.copy_encoder ∧
    l.reset_code = fresh.reset_code := by
  induction h with
  | init => exact ⟨.init, .init, rfl⟩
  | encode l ch d _ ih =>
    obtain ⟨hb, hc, hr⟩ := ih
    obtain ⟨h1, h2, h3⟩ := encode_step_sub B C l ch d
    refine ⟨?_, ?_, h1.trans hr⟩
    · rcases h2 with h | h
      · rw [h]; exact hb
      · rw [h]; exact .encode _ _ _ hb
    · rcases h3 with h | ⟨ch2, h⟩
      · rw [h]; exact hc
      · rw [h]; exact .encode _ _ _ hc
  | reset l _ ih =>
    obtain ⟨hb, hc, hr⟩ := ih
    exact ⟨.reset _ hb, .reset _ hc, hr⟩

/-- The reset of the Data Encoder restores its initial state from every state it can
reach: no call changes the bit templates. -/
theorem bytes_encoder_reset_restores (cfg : rmt_bytes_encoder_config_t) (b : bytes_encoder_t)
    (h : sub_reachable bytes_encoder { config := cfg, cursor := 0 } b) :
    bytes_encoder.reset b = { config := cfg, cursor := 0 } := by
  have hcfg : b.config = cfg := by
    induction h with
    | init => rfl
    | encode s ch d _ ih => exact ih
    | reset s _ ih => exact ih
  cases b
  simp only at hcfg
  subst hcfg
  rfl

/-! ## Claims -/

/-- C1. For a buffer of `N ≥ 1` bytes and a slot capacity `K ≥ 1` with `K < 2 * N * 8`
(`K` a `size_t` value), the transmission loop started on the initial encoder (phase
`SendData`, both cursors at `0`) ends within `N * 8 + 1` invocations, with the encoder back
in its initial state.  The returned counts add up to `N * 8 + 1`; the symbols placed in the
slot are the data symbols (one per bit, in buffer order) followed by the reset symbol; an
invocation that leaves no room in the slot reports buffer-full, and so does every
invocation that does not report complete; each count is the number of symbols placed and
at most `K`; complete is reported by the last invocation and by no earlier one. -/
theorem encode_session_complete (cfg : rmt_bytes_encoder_config_t) (rst : rmt_symbol_word_t)
    (data : List UInt8) (K : Nat) (hN : 1 ≤ data.length) (hK1 : 1 ≤ K)
    (_hK2 : K < 2 * data.length * 8) (hK : K < SIZE_T) :
    ∃ trace,
      transmit_loop K data (data.length * 8 + 1) (encoder_initial cfg rst) =
        some (trace, encoder_initial cfg rst) ∧
      trace.length ≤ data.length * 8 + 1 ∧
      (trace.map (fun inv => inv.count)).sum = data.length * 8 + 1 ∧
      (trace.map (fun inv => inv.symbols)).flatten = data_symbols cfg data ++ [rst] ∧
      (∀ inv ∈ trace, inv.free_after = 0 → inv.ret_state &&& RMT_ENCODING_MEM_FULL ≠ 0) ∧
      (∀ inv ∈ trace, inv.ret_state &&& RMT_ENCODING_COMPLETE = 0 →
        inv.ret_state &&& RMT_ENCODING_MEM_FULL ≠ 0) ∧
      (∀ inv ∈ trace, inv.count = inv.symbols.length ∧ inv.count ≤ K) ∧
      ∃ init last, trace = init ++ [last] ∧
        last.ret_state &&& RMT_ENCODING_COMPLETE ≠ 0 ∧
        ∀ inv ∈ init, inv.ret_state &&& RMT_ENCODING_COMPLETE = 0 := by
  have hL := data_symbols_length cfg data
  obtain ⟨trace, hrun, ⟨h1, h2, h3, h4, h5, h6⟩, hlen⟩ :=
    session_data cfg rst data K hK1 hK (data.length * 8 + 1) 0 (by omega) (by omega)
  rw [List.drop_zero] at h1 h2
  refine ⟨trace, hrun, by omega, ?_, h2, h3, h4, h5, h6⟩
  rw [h1, List.length_append, hL]; rfl

theorem encode_session_complete_witness :
    (∃ trace,
      transmit_loop 3 [0xA5] 9 (encoder_initial (install_item 0) (install_rst_item 0)) =
        some (trace, encoder_initial (install_item 0) (install_rst_item 0)) ∧
      (trace.map (fun inv => inv.count)).sum = 9) ∧
    (transmit_loop 3 [0xA5] 9 (encoder_initial (install_item 0) (install_rst_item 0))).map
      (fun r => r.1.map (fun inv =>
        (inv.count, inv.ret_state, inv.symbols.map (fun w => w.duration0)))) =
      some [(3, 2, [10, 4, 10]), (3, 2, [4, 4, 10]), (3, 3, [4, 10, 0])] :=
  ⟨(encode_session_complete (install_item 0) (install_rst_item 0) [0xA5] 3
      (by decide) (by decide) (by decide) (by decide)).imp
      (fun _ h => ⟨h.1, h.2.2.1⟩), by decide⟩

/-- C2, the claim as stated fails: on a WS2812 strip of two RGBW pixels with a zero-filled
buffer, `led_strip_set_pixel` at index `0` with the colour `(r = 10, g = 20, b = 30)` also
rewrites the byte at offset `3` (the luma, here `20`), so the buffer does not equal the old
one except for the three colour bytes at the offsets `0`, `1`, `2`. -/
theorem set_pixel_rgbw_changes_fourth_byte :
    strip_allocated rgbw_strip_2 ∧ 0 < rgbw_strip_2.length ∧
    (led_strip_set_pixel luma_mean rgbw_strip_2 0 ⟨10, 20, 30⟩).1 = ESP_OK ∧
    buf_bytes rgbw_strip_2 = [0, 0, 0, 0, 0, 0, 0, 0] ∧
    buf_bytes (led_strip_set_pixel luma_mean rgbw_strip_2 0 ⟨10, 20, 30⟩).2 =
      [20, 10, 30, 20, 0, 0, 0, 0] ∧
    ¬ (∀ j, j ≠ 0 → j ≠ 1 → j ≠ 2 →
      (buf_bytes (led_strip_set_pixel luma_mean rgbw_strip_2 0 ⟨10, 20, 30⟩).2)[j]? =
        (buf_bytes rgbw_strip_2)[j]?) := by
  refine ⟨rgbw_strip_2_allocated, by decide, by decide, by decide, by decide, fun hall => ?_⟩
  exact absurd (hall 3 (by decide) (by decide) (by decide)) (by decide)

/-- C2, amended. On a strip with an allocated buffer, `led_strip_set_pixel` at an index
below the pixel count succeeds; the three bytes at offset `index * COLOR_SIZE` are then
green, red, blue for the GRB types (WS2812, SK6812, PI33TB) and red, green, blue for the
RGB types (APA106, SM16703); when the white channel is enabled the fourth byte of that
pixel, at offset `index * COLOR_SIZE + 3`, is `rgb_luma color`.  Every other byte of the
buffer is unchanged: every byte outside the pixel at `index`, and, more exactly, every
byte other than those three and (with the white channel) the fourth.  The buffer keeps its
length, and no store lands outside the buffer. -/
theorem set_pixel_layout (rgb_luma : rgb_t → UInt8) (strip : led_strip_t) (index : Nat)
    (color : rgb_t) (h : strip_allocated strip) (hi : index < strip.length) :
    (led_strip_set_pixel rgb_luma strip index color).1 = ESP_OK ∧
    ((strip.type = LED_STRIP_WS2812 ∨ strip.type = LED_STRIP_SK6812 ∨
        strip.type = LED_STRIP_PI33TB) →
      (buf_bytes (led_strip_set_pixel rgb_luma strip index color).2)[
          index * COLOR_SIZE strip]? = some color.g ∧
      (buf_bytes (led_strip_set_pixel rgb_luma strip index color).2)[
          index * COLOR_SIZE strip + 1]? = some color.r ∧
      (buf_bytes (led_strip_set_pixel rgb_luma strip index color).2)[
          index * COLOR_SIZE strip + 2]? = some color.b) ∧
    ((strip.type = LED_STRIP_APA106 ∨ strip.type = LED_STRIP_SM16703) →
      (buf_bytes (led_strip_set_pixel rgb_luma strip index color).2)[
          index * COLOR_SIZE strip]? = some color.r ∧
      (buf_bytes (led_strip_set_pixel rgb_luma strip index color).2)[
          index * COLOR_SIZE strip + 1]? = some color.g ∧
      (buf_bytes (led_strip_set_pixel rgb_luma strip index color).2)[
          index * COLOR_SIZE strip + 2]? = some color.b) ∧
    (∀ j, (j < index * COLOR_SIZE strip ∨ index * COLOR_SIZE strip + COLOR_SIZE strip ≤ j) →
      (buf_bytes (led_strip_set_pixel rgb_luma strip index color).2)[j]? =
        (buf_bytes strip)[j]?) ∧
    (buf_bytes (led_strip_set_pixel rgb_luma strip index color).2).length =
      (buf_bytes strip).length ∧
    buf_stray (led_strip_set_pixel rgb_luma strip index color).2 = buf_stray strip ∧
    (strip.is_rgbw = true →
      (buf_bytes (led_strip_set_pixel rgb_luma strip index color).2)[
          index * COLOR_SIZE strip + 3]? = some (rgb_luma color)) ∧
    (∀ j, j ≠ index * COLOR_SIZE strip → j ≠ index * COLOR_SIZE strip + 1 →
      j ≠ index * COLOR_SIZE strip + 2 →
      (strip.is_rgbw = true → j ≠ index * COLOR_SIZE strip + 3) →
      (buf_bytes (led_strip_set_pixel rgb_luma strip index color).2)[j]? =
        (buf_bytes strip)[j]?) := by
  obtain ⟨m, p, b, hm, hp, hset, hlen, hget⟩ := set_pixel_in_range rgb_luma strip index color h hi
  have hcs := COLOR_SIZE_pos strip
  have hin : ∀ k, k < 3 → (index * COLOR_SIZE strip ≤ index * COLOR_SIZE strip + k ∧
      index * COLOR_SIZE strip + k < index * COLOR_SIZE strip + COLOR_SIZE strip) := by
    intro k hk; omega
  have hb : ∀ k, k < 3 → b[index * COLOR_SIZE strip + k]? =
      (pixel_bytes rgb_luma p.order strip.is_rgbw color)[k]? := by
    intro k hk
    rw [hget, if_pos (hin k hk), Nat.add_sub_cancel_left]
  have h0 := hb 0 (by omega)
  have h1 := hb 1 (by omega)
  have h2 := hb 2 (by omega)
  rw [hset]
  simp only [buf_bytes, buf_stray, hm]
  refine ⟨trivial, ?_, ?_, ?_, hlen, trivial, ?_, ?_⟩
  · intro ht
    rw [(order_of_type hp).1 ht] at h0 h1 h2
    simpa [pixel_bytes] using And.intro h0 (And.intro h1 h2)
  · intro ht
    rw [(order_of_type hp).2 ht] at h0 h1 h2
    simpa [pixel_bytes] using And.intro h0 (And.intro h1 h2)
  · intro j hj
    rw [hget, if_neg (by omega)]
  · intro hw
    have hc : COLOR_SIZE strip = 4 := by simp [COLOR_SIZE, hw]
    rw [hget, if_pos (by omega), Nat.add_sub_cancel_left, hw]
    cases p.order <;> simp [pixel_bytes]
  · intro j j0 j1 j2 j3
    rw [hget, if_neg]
    rintro ⟨hlo, hhi⟩
    cases hw : strip.is_rgbw with
    | false =>
      have hc : COLOR_SIZE strip = 3 := by simp [COLOR_SIZE, hw]
      omega
    | true =>
      have hc : COLOR_SIZE strip = 4 := by simp [COLOR_SIZE, hw]
      have := j3 hw
      omega

theorem set_pixel_layout_witness :
    (led_strip_set_pixel (fun _ => 0) grb_strip_2 1 ⟨10, 20, 30⟩).1 = ESP_OK ∧
    buf_bytes (led_strip_set_pixel (fun _ => 0) grb_strip_2 1 ⟨10, 20, 30⟩).2 =
      [0, 0, 0, 20, 10, 30] ∧
    (buf_bytes (led_strip_set_pixel (fun _ => 0) grb_strip_2 1 ⟨10, 20, 30⟩).2)[3]? =
      some 20 ∧
    (buf_bytes (led_strip_set_pixel luma_mean rgbw_strip_2 1 ⟨10, 20, 30⟩).2)[7]? =
      some (luma_mean ⟨10, 20, 30⟩) ∧
    (buf_bytes (led_strip_set_pixel luma_mean rgbw_strip_2 1 ⟨10, 20, 30⟩).2)[3]? =
      (buf_bytes rgbw_strip_2)[3]? :=
  ⟨(set_pixel_layout (fun _ => 0) grb_strip_2 1 ⟨10, 20, 30⟩ grb_strip_2_allocated
      (by decide)).1, by decide,
   ((set_pixel_layout (fun _ => 0) grb_strip_2 1 ⟨10, 20, 30⟩ grb_strip_2_allocated
      (by decide)).2.1 (Or.inl rfl)).1,
   (set_pixel_layout luma_mean rgbw_strip_2 1 ⟨10, 20, 30⟩ rgbw_strip_2_allocated
      (by decide)).2.2.2.2.2.2.1 rfl,
   (set_pixel_layout luma_mean rgbw_strip_2 1 ⟨10, 20, 30⟩ rgbw_strip_2_allocated
      (by decide)).2.2.2.2.2.2.2 3 (by decide) (by decide) (by decide) (fun _ => by decide)⟩

/-- C3. The code at the failing input: on a WS2812 strip of two pixels (a buffer of six
bytes), `led_strip_set_pixel` at index `2`, the pixel count, returns `ESP_OK` and stores
three bytes at the offsets `6`, `7`, `8`, all outside the buffer; the claim asks for a
failure without any store. -/
theorem set_pixel_at_pixel_count :
    ∀ rgb_luma : rgb_t → UInt8,
      led_strip_set_pixel rgb_luma grb_strip_2 grb_strip_2.length ⟨10, 20, 30⟩ =
        (ESP_OK, { grb_strip_2 with
          buf := some { bytes := [0, 0, 0, 0, 0, 0],
                        stray := [(6, 20), (7, 10), (8, 30)] } }) := by
  intro rgb_luma; rfl

/-- C4. The code at the failing input: on a strip of two pixels,
`led_strip_set_pixels` with `start = 1` and `len = 2 ^ 32 - 1` (so `start + len` exceeds
the pixel count and wraps to `0` as a `size_t`) passes the range check, writes pixel `1`
and three bytes behind the buffer, and only then returns `ESP_ERR_INVALID_ARG`: the failure
is reported after a prefix of the range was written. -/
theorem set_pixels_wrapped_range_writes :
    ∀ rgb_luma : rgb_t → UInt8,
      1 + 4294967295 > grb_strip_2.length ∧
      led_strip_set_pixels rgb_luma grb_strip_2 1 4294967295 (fun _ => ⟨10, 20, 30⟩) =
        (ESP_ERR_INVALID_ARG, { grb_strip_2 with
          buf := some { bytes := [0, 0, 0, 20, 10, 30],
                        stray := [(6, 20), (7, 10), (8, 30)] } }) := by
  intro rgb_luma; exact ⟨by decide, rfl⟩

/-- C5. The code at the failing input: on a strip of two pixels, `led_strip_fill` with
`start = 1` and `len = 2 ^ 32 - 1` (so `start + len` exceeds the pixel count and wraps to
`0` as a `size_t`) passes the range check, runs its loop zero times and returns `ESP_OK`
with the buffer unchanged: an out-of-range call reports success. -/
theorem fill_wrapped_range_succeeds :
    ∀ rgb_luma : rgb_t → UInt8,
      1 + 4294967295 > grb_strip_2.length ∧
      led_strip_fill rgb_luma grb_strip_2 1 4294967295 ⟨10, 20, 30⟩ =
        (ESP_OK, grb_strip_2) := by
  intro rgb_luma; exact ⟨by decide, rfl⟩

/-- C6. For a strip with an allocated buffer, `len ≥ 1` and `start + len` at most the
pixel count, `led_strip_set_pixels` succeeds and leaves the strip that the calls
`led_strip_set_pixel (start + i) (data i)`, `i = 0, ..., len - 1` in order, leave; so does
`led_strip_fill` with the one colour at every index; in particular both hold for
`start = 0` and `len` the pixel count. -/
theorem set_pixels_is_iteration (rgb_luma : rgb_t → UInt8) (strip : led_strip_t)
    (start len : Nat) (data : Nat → rgb_t) (c : rgb_t) (h : strip_allocated strip)
    (hlen : 1 ≤ len) (hr : start + len ≤ strip.length) :
    led_strip_set_pixels rgb_luma strip start len data =
      (ESP_OK, set_pixel_each rgb_luma strip start len data) ∧
    led_strip_fill rgb_luma strip start len c =
      (ESP_OK, set_pixel_each rgb_luma strip start len (fun _ => c)) ∧
    led_strip_set_pixels rgb_luma strip 0 strip.length data =
      (ESP_OK, set_pixel_each rgb_luma strip 0 strip.length data) ∧
    led_strip_fill rgb_luma strip 0 strip.length c =
      (ESP_OK, set_pixel_each rgb_luma strip 0 strip.length (fun _ => c)) := by
  have hpos : 1 ≤ strip.length := by omega
  refine ⟨set_pixels_eq rgb_luma strip start len data h hlen hr, ?_,
    set_pixels_eq rgb_luma strip 0 strip.length data h hpos (by omega), ?_⟩
  · rw [fill_eq rgb_luma strip start len c h hlen hr, fill_fold_each]
  · rw [fill_eq rgb_luma strip 0 strip.length c h hpos (by omega), fill_fold_each]

theorem set_pixels_is_iteration_witness :
    led_strip_set_pixels luma_mean grb_strip_2 0 2 ramp =
      (ESP_OK, set_pixel_each luma_mean grb_strip_2 0 2 ramp) ∧
    led_strip_fill luma_mean grb_strip_2 0 2 ⟨10, 20, 30⟩ =
      (ESP_OK, set_pixel_each luma_mean grb_strip_2 0 2 (fun _ => ⟨10, 20, 30⟩)) ∧
    buf_bytes (set_pixel_each luma_mean grb_strip_2 0 2 ramp) = [100, 0, 200, 101, 1, 201] :=
  ⟨(set_pixels_is_iteration luma_mean grb_strip_2 0 2 ramp ⟨10, 20, 30⟩
      grb_strip_2_allocated (by decide) (by decide)).1,
   (set_pixels_is_iteration luma_mean grb_strip_2 0 2 ramp ⟨10, 20, 30⟩
      grb_strip_2_allocated (by decide) (by decide)).2.1, by decide⟩

/-- C7. For a strip with an allocated buffer, `len ≥ 1` and `start + len` at most the
pixel count, `led_strip_fill` succeeds; afterwards every pixel `i` with
`start ≤ i < start + len` holds the bytes `led_strip_set_pixel i c` stores, every byte of
a pixel outside that range is unchanged, the buffer keeps its length, and no store lands
outside the buffer. -/
theorem fill_covers_range (rgb_luma : rgb_t → UInt8) (strip : led_strip_t)
    (start len : Nat) (c : rgb_t) (h : strip_allocated strip)
    (hlen : 1 ≤ len) (hr : start + len ≤ strip.length) :
    (led_strip_fill rgb_luma strip start len c).1 = ESP_OK ∧
    (∀ i, start ≤ i → i < start + len → ∀ k, k < COLOR_SIZE strip →
      (buf_bytes (led_strip_fill rgb_luma strip start len c).2)[i * COLOR_SIZE strip + k]? =
        (buf_bytes (led_strip_set_pixel rgb_luma strip i c).2)[i * COLOR_SIZE strip + k]?) ∧
    (∀ j, (j / COLOR_SIZE strip < start ∨ start + len ≤ j / COLOR_SIZE strip) →
      (buf_bytes (led_strip_fill rgb_luma strip start len c).2)[j]? =
        (buf_bytes strip)[j]?) ∧
    (buf_bytes (led_strip_fill rgb_luma strip start len c).2).length =
      (buf_bytes strip).length ∧
    buf_stray (led_strip_fill rgb_luma strip start len c).2 = buf_stray strip := by
  obtain ⟨p, hp⟩ := led_params_some h.1
  obtain ⟨hst, hl, hget⟩ := fill_fold_get rgb_luma c p len start strip h hp hr
  rw [fill_eq rgb_luma strip start len c h hlen hr]
  refine ⟨rfl, ?_, ?_, hl, hst⟩
  · intro i hi1 hi2 k hk
    obtain ⟨p1, hp1, _, _, _, _, _, _, _, hget1⟩ :=
      set_pixel_div rgb_luma strip i c h (by omega)
    rw [hp] at hp1; cases hp1
    have hq : (i * COLOR_SIZE strip + k) / COLOR_SIZE strip = i := by
      rw [Nat.mul_comm, Nat.mul_add_div (by omega), Nat.div_eq_of_lt hk, Nat.add_zero]
    rw [hget, hget1, hq, if_pos ⟨hi1, hi2⟩, if_pos rfl]
  · intro j hj
    simp only [hget]
    rw [if_neg (by omega)]

theorem fill_covers_range_witness :
    (led_strip_fill luma_mean grb_strip_2 1 1 ⟨10, 20, 30⟩).1 = ESP_OK ∧
    buf_bytes (led_strip_fill luma_mean grb_strip_2 1 1 ⟨10, 20, 30⟩).2 =
      [0, 0, 0, 20, 10, 30] ∧
    (buf_bytes (led_strip_fill luma_mean grb_strip_2 1 1 ⟨10, 20, 30⟩).2)[0]? =
      (buf_bytes grb_strip_2)[0]? :=
  ⟨(fill_covers_range luma_mean grb_strip_2 1 1 ⟨10, 20, 30⟩ grb_strip_2_allocated
      (by decide) (by decide)).1, by decide,
   (fill_covers_range luma_mean grb_strip_2 1 1 ⟨10, 20, 30⟩ grb_strip_2_allocated
      (by decide) (by decide)).2.2.1 0 (Or.inl (by decide))⟩

/-- C9, the claim as stated fails: for the WS2812 profile `led_strip_install` does not
produce the reset symbol `(level 0, duration 25, level 0, duration 25)`. -/
theorem install_ws2812_reset_not_25 :
    led_strip_install.rmt_rst_items[LED_STRIP_WS2812]? ≠
      some { level0 := 0, duration0 := 25, level1 := 0, duration1 := 25 } := by
  decide

/-- C9, amended. For the WS2812 profile (`t0h = 400`, `t0l = 1000`, `t1h = 1000`,
`t1l = 400`, `trst = 50`) at the 10 MHz resolution `led_strip_install` produces
`bit0 = (level 1, duration 4, level 0, duration 10)`,
`bit1 = (level 1, duration 10, level 0, duration 4)`, and a reset symbol with level 0 in
both halves and two equal durations. -/
theorem install_ws2812_symbols :
    led_params[LED_STRIP_WS2812]? =
      some { t0h := 400, t0l := 1000, t1h := 1000, t1l := 400, trst := 50,
             order := .ORDER_GRB } ∧
    led_strip_install.rmt_items[LED_STRIP_WS2812]? =
      some { bit0 := { level0 := 1, duration0 := 4, level1 := 0, duration1 := 10 },
             bit1 := { level0 := 1, duration0 := 10, level1 := 0, duration1 := 4 },
             msb_first := 1 } ∧
    (led_strip_install.rmt_rst_items[LED_STRIP_WS2812]?).map
        (fun w => (w.level0, w.level1, decide (w.duration0 = w.duration1))) =
      some (0, 0, true) := by
  decide

/-- C10, the claim as stated fails: for APA106 the duration `t0l = 1360` ns is 13.6
ticks, whose nearest integer is 14, but `led_strip_install` stores 13 ticks. -/
theorem install_apa106_t0l_not_nearest :
    (led_params[LED_STRIP_APA106]?).map (fun p => p.t0l) = some 1360 ∧
    ticks_nearest 1360 = 14 ∧
    (led_strip_install.rmt_items[LED_STRIP_APA106]?).map (fun c => c.bit0.duration1) =
      some 13 ∧
    (led_strip_install.rmt_items[LED_STRIP_APA106]?).map (fun c => c.bit0.duration1) ≠
      some (ticks_nearest 1360) := by
  decide

/-- C10, amended. For every variant of `led_params`, each of the four bit durations `d`
is stored by `led_strip_install` as `d * R / 1e9` rounded down, `R = 10,000,000` (APA106
`t0l = 1360` ns compiles to 13 ticks); both bit symbols have `level0 = 1` and
`level1 = 0`, and `msb_first` is set. -/
theorem install_ticks_round_down :
    led_strip_install.rmt_items =
      led_params.map (fun p =>
        { bit0 := { level0 := 1, duration0 := ticks_floor p.t0h,
                    level1 := 0, duration1 := ticks_floor p.t0l },
          bit1 := { level0 := 1, duration0 := ticks_floor p.t1h,
                    level1 := 0, duration1 := ticks_floor p.t1l },
          msb_first := 1 }) ∧
    led_params.length = LED_STRIP_TYPE_MAX ∧
    (led_strip_install.rmt_items[LED_STRIP_APA106]?).map (fun c => c.bit0.duration1) =
      some 13 := by
  decide

/-- C11. The code at the failing input: for every variant `led_strip_install` stores the
reset symbol with both durations `0` (`trst = 50` and `trst = 80` are 0.5 and 0.8 ticks,
which the cast turns into `0` before the halving), so the reset durations are not
strictly positive.  The rest of the claim holds: the bit symbols have positive durations,
all levels are `0` or `1`, and the reset symbol has two low levels and two equal
durations, each half of the scaled `trst`. -/
theorem install_reset_durations_zero :
    led_strip_install.rmt_rst_items.map (fun w => (w.duration0, w.duration1)) =
      List.replicate LED_STRIP_TYPE_MAX (0, 0) ∧
    (led_strip_install.rmt_rst_items[LED_STRIP_WS2812]?).map (fun w => w.duration0) =
      some 0 ∧
    ticks 50 = 0 ∧ ticks 80 = 0 ∧
    (∀ c ∈ led_strip_install.rmt_items,
      0 < c.bit0.duration0 ∧ 0 < c.bit0.duration1 ∧ 0 < c.bit1.duration0 ∧
      0 < c.bit1.duration1 ∧ c.bit0.level0 = 1 ∧ c.bit0.level1 = 0 ∧ c.bit1.level0 = 1 ∧
      c.bit1.level1 = 0) ∧
    led_strip_install.rmt_rst_items =
      led_params.map (fun p =>
        { level0 := 0, duration0 := ticks p.trst / 2,
          level1 := 0, duration1 := ticks p.trst / 2 }) := by
  decide

/-- C12. For every encoder state, `rmt_led_strip_encoder_reset` returns `ESP_OK`, leaves
the phase at `SendData` (`0`), and leaves as private data of each sub-encoder the result of
that sub-encoder's `reset` on the data it had; the reset code is kept. -/
theorem encoder_reset_post {σb σc : Type} (B : rmt_encoder_t σb (List UInt8))
    (C : rmt_encoder_t σc (List rmt_symbol_word_t))
    (led_encoder : rmt_led_strip_encoder_t σb σc) :
    (rmt_led_strip_encoder_reset B C led_encoder).1 = ESP_OK ∧
    (rmt_led_strip_encoder_reset B C led_encoder).2.state = 0 ∧
    (rmt_led_strip_encoder_reset B C led_encoder).2.bytes_encoder =
      B.reset led_encoder.bytes_encoder ∧
    (rmt_led_strip_encoder_reset B C led_encoder).2.copy_encoder =
      C.reset led_encoder.copy_encoder ∧
    (rmt_led_strip_encoder_reset B C led_encoder).2.reset_code = led_encoder.reset_code :=
  ⟨rfl, rfl, rfl, rfl, rfl⟩

/-- C13. Assume that the `reset` of each sub-encoder restores that sub-encoder's initial
state from every state the sub-encoder can reach.  Then for every encoder state reachable
from a fresh encoder (phase `SendData`) by invocations and resets, in whichever phase it
was left, `rmt_led_strip_encoder_reset` yields the fresh encoder again; so every sequence
of invocations, with any channel states and buffers, gives after the reset the same
results (emitted symbols, count, status, room left) as on the fresh encoder. -/
theorem reset_reproduces_first_encode {σb σc : Type} (B : rmt_encoder_t σb (List UInt8))
    (C : rmt_encoder_t σc (List rmt_symbol_word_t))
    (fresh led_encoder : rmt_led_strip_encoder_t σb σc)
    (hfresh : fresh.state = 0)
    (hB : ∀ b, sub_reachable B fresh.bytes_encoder b → B.reset b = fresh.bytes_encoder)
    (hC : ∀ c, sub_reachable C fresh.copy_encoder c → C.reset c = fresh.copy_encoder)
    (hr : led_reachable B C fresh led_encoder) :
    (rmt_led_strip_encoder_reset B C led_encoder).1 = ESP_OK ∧
    (rmt_led_strip_encoder_reset B C led_encoder).2 = fresh ∧
    ∀ runs : List (rmt_channel_t × List UInt8),
      encode_run B C runs (rmt_led_strip_encoder_reset B C led_encoder).2 =
        encode_run B C runs fresh := by
  obtain ⟨hb, hc, hcode⟩ := led_reachable_sub B C fresh led_encoder hr
  have heq : (rmt_led_strip_encoder_reset B C led_encoder).2 = fresh := by
    cases fresh with
    | mk fb fc fs fr =>
      simp only at hfresh hcode hB hC hb hc
      simp only [rmt_led_strip_encoder_reset, hB _ hb, hC _ hc, hcode, hfresh]
      rfl
  exact ⟨rfl, heq, fun runs => by rw [heq]⟩

theorem reset_reproduces_first_encode_witness :
    ws2812_encoder_paused.bytes_encoder.cursor = 3 ∧
    encode_run bytes_encoder copy_encoder [(slot 3, [0xA5]), (slot 3, [0xA5]), (slot 3, [0xA5])]
        (rmt_led_strip_encoder_reset bytes_encoder copy_encoder ws2812_encoder_paused).2 =
      encode_run bytes_encoder copy_encoder
        [(slot 3, [0xA5]), (slot 3, [0xA5]), (slot 3, [0xA5])] ws2812_encoder :=
  ⟨by decide,
   (reset_reproduces_first_encode bytes_encoder copy_encoder ws2812_encoder
      ws2812_encoder_paused rfl
      (fun b hb => bytes_encoder_reset_restores _ b hb) (fun _ _ => rfl)
      (led_reachable.encode _ _ _ led_reachable.init)).2.2 _⟩

/-- C14, the claim as stated fails: on a strip of two pixels the out-of-range call
(`start = 2`, `len = 1`) and the zero-length call (`len = 0`) of `led_strip_set_pixels`
return the same error value, `ESP_ERR_INVALID_ARG`, and so do the two calls of
`led_strip_fill`; there are not two different error values. -/
theorem range_error_kinds_coincide :
    (led_strip_set_pixels luma_mean grb_strip_2 2 1 ramp).1 = ESP_ERR_INVALID_ARG ∧
    (led_strip_set_pixels luma_mean grb_strip_2 0 0 ramp).1 = ESP_ERR_INVALID_ARG ∧
    (led_strip_fill luma_mean grb_strip_2 2 1 ⟨10, 20, 30⟩).1 = ESP_ERR_INVALID_ARG ∧
    (led_strip_fill luma_mean grb_strip_2 0 0 ⟨10, 20, 30⟩).1 = ESP_ERR_INVALID_ARG ∧
    ¬ ((led_strip_set_pixels luma_mean grb_strip_2 2 1 ramp).1 ≠
        (led_strip_set_pixels luma_mean grb_strip_2 0 0 ramp).1) ∧
    ¬ ((led_strip_fill luma_mean grb_strip_2 2 1 ⟨10, 20, 30⟩).1 ≠
        (led_strip_fill luma_mean grb_strip_2 0 0 ⟨10, 20, 30⟩).1) := by
  decide

/-- C14, amended. `led_strip_set_pixels` and `led_strip_fill` fail with one and the same
error value, `ESP_ERR_INVALID_ARG`, both when `start + len` exceeds the pixel count (with
`len ≥ 1` and `start + len` below `2 ^ 32`, so that the `size_t` sum does not wrap) and
when `len` is `0`; in both cases the strip, and with it the buffer, is unchanged. -/
theorem range_errors_invalid_arg (rgb_luma : rgb_t → UInt8) (strip : led_strip_t)
    (start len : Nat) (data : Nat → rgb_t) (color : rgb_t) :
    (1 ≤ len → start + len < SIZE_T → strip.length < start + len →
      led_strip_set_pixels rgb_luma strip start len data = (ESP_ERR_INVALID_ARG, strip) ∧
      led_strip_fill rgb_luma strip start len color = (ESP_ERR_INVALID_ARG, strip)) ∧
    led_strip_set_pixels rgb_luma strip start 0 data = (ESP_ERR_INVALID_ARG, strip) ∧
    led_strip_fill rgb_luma strip start 0 color = (ESP_ERR_INVALID_ARG, strip) := by
  refine ⟨?_, ?_, ?_⟩
  · intro _ hlt hgt
    have hmod : (start + len) % SIZE_T = start + len := Nat.mod_eq_of_lt hlt
    have hno : ¬ (strip.buf.isSome = true ∧ len ≠ 0 ∧ (start + len) % SIZE_T ≤ strip.length) := by
      rw [hmod]; rintro ⟨_, _, h⟩; omega
    constructor
    · unfold led_strip_set_pixels; rw [if_neg hno]
    · unfold led_strip_fill; rw [if_neg hno]
  · unfold led_strip_set_pixels
    rw [if_neg (by rintro ⟨_, h, _⟩; exact h rfl)]
  · unfold led_strip_fill
    rw [if_neg (by rintro ⟨_, h, _⟩; exact h rfl)]

theorem range_errors_invalid_arg_witness :
    led_strip_set_pixels luma_mean grb_strip_2 1 2 ramp = (ESP_ERR_INVALID_ARG, grb_strip_2) ∧
    led_strip_fill luma_mean grb_strip_2 1 2 ⟨10, 20, 30⟩ =
      (ESP_ERR_INVALID_ARG, grb_strip_2) :=
  (range_errors_invalid_arg luma_mean grb_strip_2 1 2 ramp ⟨10, 20, 30⟩).1
    (by decide) (by decide) (by decide)

/-- C15. `led_strip_init` returns `ESP_ERR_INVALID_ARG` whenever the length is `0` or the
type is not below `LED_STRIP_TYPE_MAX`, and then leaves the strip as it was, whatever the
external calls would do: no buffer, channel or encoder is set.  With valid arguments it
returns `ESP_ERR_NO_MEM` when `calloc` returns null, again without a channel or an encoder.
With valid arguments, a successful `calloc` and success of every external call it returns
`ESP_OK` with a zero-filled buffer of `length * COLOR_SIZE` bytes. -/
theorem init_argument_validation (env : init_env_t) (tables : rmt_tables_t)
    (strip : led_strip_t) :
    ((strip.length = 0 ∨ LED_STRIP_TYPE_MAX ≤ strip.type) →
      led_strip_init env tables strip = (ESP_ERR_INVALID_ARG, strip)) ∧
    (0 < strip.length → strip.type < LED_STRIP_TYPE_MAX →
      calloc env.calloc_ok strip.length (COLOR_SIZE strip) = none →
      led_strip_init env tables strip = (ESP_ERR_NO_MEM, { strip with buf := none })) ∧
    (0 < strip.length → strip.type < LED_STRIP_TYPE_MAX →
      (calloc env.calloc_ok strip.length (COLOR_SIZE strip)).isSome = true →
      env.rmt_new_tx_channel = ESP_OK → env.encoder_env.calloc_ok = true →
      env.encoder_env.rmt_new_bytes_encoder = ESP_OK →
      env.encoder_env.rmt_new_copy_encoder = ESP_OK → env.rmt_enable = ESP_OK →
      (led_strip_init env tables strip).1 = ESP_OK ∧
      buf_bytes (led_strip_init env tables strip).2 =
        List.replicate (strip.length * COLOR_SIZE strip) 0 ∧
      buf_stray (led_strip_init env tables strip).2 = [] ∧
      (led_strip_init env tables strip).2.length = strip.length ∧
      (led_strip_init env tables strip).2.is_rgbw = strip.is_rgbw ∧
      (led_strip_init env tables strip).2.type = strip.type ∧
      (led_strip_init env tables strip).2.channel = some env.channel ∧
      (led_strip_init env tables strip).2.encoder.isSome = true) := by
  refine ⟨?_, ?_, ?_⟩
  · intro h
    unfold led_strip_init
    rw [if_pos (by rintro ⟨h1, h2⟩; rcases h with h | h <;> omega)]
  · intro h1 h2 hc
    simp only [led_strip_init, hc]
    rw [if_neg (by intro h; exact h ⟨h1, h2⟩)]
    rfl
  · intro h1 h2 hc hch hec heb hecp hen
    have hval : led_strip_init env tables strip =
        (ESP_OK, { strip with
          buf := calloc env.calloc_ok strip.length (COLOR_SIZE strip)
          channel := some env.channel
          encoder := some (encoder_initial
            (tables.rmt_items.getD strip.type
              { bit0 := rmt_symbol_zero, bit1 := rmt_symbol_zero, msb_first := 0 })
            (tables.rmt_rst_items.getD strip.type rmt_symbol_zero)) }) := by
      cases hcm : calloc env.calloc_ok strip.length (COLOR_SIZE strip) with
      | none => rw [hcm] at hc; cases hc
      | some m =>
        simp only [led_strip_init, led_strip_encoder_init, hcm, hch, hec, heb, hecp, hen]
        rw [if_neg (by intro h; exact h ⟨h1, h2⟩)]
        simp
    rw [hval]
    cases hcm : calloc env.calloc_ok strip.length (COLOR_SIZE strip) with
    | none => rw [hcm] at hc; cases hc
    | some m =>
      obtain ⟨_, hb, hst⟩ := calloc_some hcm
      simp only [buf_bytes, buf_stray, Option.isSome_some, and_true, true_and]
      exact ⟨hb, hst⟩

theorem init_argument_validation_witness :
    led_strip_init env_ok led_strip_install { grb_strip_new with length := 0 } =
      (ESP_ERR_INVALID_ARG, { grb_strip_new with length := 0 }) ∧
    led_strip_init env_ok led_strip_install { grb_strip_new with type := LED_STRIP_TYPE_MAX } =
      (ESP_ERR_INVALID_ARG, { grb_strip_new with type := LED_STRIP_TYPE_MAX }) ∧
    led_strip_init env_no_mem led_strip_install grb_strip_new =
      (ESP_ERR_NO_MEM, { grb_strip_new with buf := none }) ∧
    (led_strip_init env_ok led_strip_install grb_strip_new).1 = ESP_OK ∧
    buf_bytes (led_strip_init env_ok led_strip_install grb_strip_new).2 =
      List.replicate (2 * 3) 0 :=
  ⟨(init_argument_validation env_ok led_strip_install { grb_strip_new with length := 0 }).1
      (Or.inl rfl),
   (init_argument_validation env_ok led_strip_install
      { grb_strip_new with type := LED_STRIP_TYPE_MAX }).1 (Or.inr (by decide)),
   (init_argument_validation env_no_mem led_strip_install grb_strip_new).2.1
      (by decide) (by decide) (by decide),
   ((init_argument_validation env_ok led_strip_install grb_strip_new).2.2
      (by decide) (by decide) (by decide) rfl rfl rfl rfl rfl).1,
   ((init_argument_validation env_ok led_strip_install grb_strip_new).2.2
      (by decide) (by decide) (by decide) rfl rfl rfl rfl rfl).2.1⟩

/-- C16. For every behaviour of `rmt_tx_wait_all_done` and every state of the channel,
`led_strip_busy` returns true exactly when `led_strip_wait` with timeout `0` returns
`ESP_ERR_TIMEOUT`, and false exactly when it returns any other status.  On a non-null
strip both make the one call `rmt_tx_wait_all_done(strip->channel, 0)`: they leave the
channel in the state that call leaves, and `led_strip_wait` returns its status. -/
theorem wait_zero_agrees_with_busy {ω : Type}
    (rmt_tx_wait_all_done : ω → Option Nat → Nat → esp_err_t × ω) (w : ω) :
    (∀ strip : Option led_strip_t,
      ((led_strip_busy rmt_tx_wait_all_done w strip).1 = true ↔
        (led_strip_wait rmt_tx_wait_all_done w strip 0).1 = ESP_ERR_TIMEOUT) ∧
      ((led_strip_busy rmt_tx_wait_all_done w strip).1 = false ↔
        (led_strip_wait rmt_tx_wait_all_done w strip 0).1 ≠ ESP_ERR_TIMEOUT)) ∧
    (∀ strip : led_strip_t,
      (led_strip_busy rmt_tx_wait_all_done w (some strip)).2 =
        (rmt_tx_wait_all_done w strip.channel 0).2 ∧
      (led_strip_wait rmt_tx_wait_all_done w (some strip) 0).2 =
        (rmt_tx_wait_all_done w strip.channel 0).2 ∧
      (led_strip_wait rmt_tx_wait_all_done w (some strip) 0).1 =
        (rmt_tx_wait_all_done w strip.channel 0).1 ∧
      (led_strip_busy rmt_tx_wait_all_done w (some strip)).1 =
        decide ((rmt_tx_wait_all_done w strip.channel 0).1 = ESP_ERR_TIMEOUT)) := by
  refine ⟨fun strip => ?_, fun strip => ⟨rfl, rfl, rfl, rfl⟩⟩
  cases strip with
  | none =>
    have hne : ESP_ERR_INVALID_ARG ≠ ESP_ERR_TIMEOUT := by decide
    simp [led_strip_busy, led_strip_wait, hne]
  | some s =>
    simp only [led_strip_busy, led_strip_wait, decide_eq_true_eq, decide_eq_false_iff_not,
      ne_eq, and_self]

/-- C17. When an invocation of `rmt_encode_led_strip` starts in the phase `SendData` and
the data sub-encoder reports complete and not buffer-full, the phase is set to `SendReset`
and the code from `case 1:` runs in the same invocation: the reset sub-encoder is called
once, with the reset code, on the channel the data sub-encoder left.  The returned count is
the `size_t` sum of the two sub-encoder counts, and equals their sum whenever that sum is
below `2 ^ 32`.  Afterwards the phase is `SendData` if the reset sub-encoder reported
complete and `SendReset` otherwise. -/
theorem fall_through_on_complete {σb σc : Type} (B : rmt_encoder_t σb (List UInt8))
    (C : rmt_encoder_t σc (List rmt_symbol_word_t))
    (led_encoder : rmt_led_strip_encoder_t σb σc) (channel : rmt_channel_t)
    (data : List UInt8) (nb nc : Nat) (rB : encode_result_t σb) (rC : encode_result_t σc)
    (hs : led_encoder.state = 0)
    (hB : B.encode led_encoder.bytes_encoder channel data = rB)
    (hC : C.encode led_encoder.copy_encoder rB.channel [led_encoder.reset_code] = rC)
    (hc : rB.state &&& RMT_ENCODING_COMPLETE ≠ 0)
    (hf : rB.state &&& RMT_ENCODING_MEM_FULL = 0) :
    rmt_encode_led_strip B C led_encoder channel data =
      encode_case_1 C { led_encoder with bytes_encoder := rB.encoder, state := 1 }
        rB.channel (rB.count % SIZE_T) RMT_ENCODING_RESET ∧
    (rmt_encode_led_strip B C led_encoder channel data).encoder.bytes_encoder = rB.encoder ∧
    (rmt_encode_led_strip B C led_encoder channel data).encoder.copy_encoder = rC.encoder ∧
    (rmt_encode_led_strip B C led_encoder channel data).channel = rC.channel ∧
    (rmt_encode_led_strip (counted B) (counted C) (with_counts led_encoder nb nc) channel
      data).encoder.bytes_encoder.2 = nb + 1 ∧
    (rmt_encode_led_strip (counted B) (counted C) (with_counts led_encoder nb nc) channel
      data).encoder.copy_encoder.2 = nc + 1 ∧
    (rmt_encode_led_strip B C led_encoder channel data).encoded_symbols =
      (rB.count + rC.count) % SIZE_T ∧
    (rB.count + rC.count < SIZE_T →
      (rmt_encode_led_strip B C led_encoder channel data).encoded_symbols =
        rB.count + rC.count) ∧
    (rmt_encode_led_strip B C led_encoder channel data).encoder.state =
      (if rC.state &&& RMT_ENCODING_COMPLETE ≠ 0 then 0 else 1) := by
  have hf' : ¬ (rB.state &&& RMT_ENCODING_MEM_FULL ≠ 0) := fun h => h hf
  have hmain : rmt_encode_led_strip B C led_encoder channel data =
      encode_case_1 C { led_encoder with bytes_encoder := rB.encoder, state := 1 }
        rB.channel (rB.count % SIZE_T) RMT_ENCODING_RESET := by
    simp only [rmt_encode_led_strip, hs, if_true, hB, hc, hf', if_false, Nat.zero_add,
      ne_eq, not_false_eq_true]
  obtain ⟨h1, h2, _, h4, h5, h6, h7, _, _⟩ :=
    encode_case_1_spec C { led_encoder with bytes_encoder := rB.encoder, state := 1 }
      rB.channel (rB.count % SIZE_T) rC hC
  have hsum : (rB.count % SIZE_T + rC.count) % SIZE_T = (rB.count + rC.count) % SIZE_T := by
    rw [Nat.add_mod, Nat.mod_mod, ← Nat.add_mod]
  have hcnt :
      (rmt_encode_led_strip (counted B) (counted C) (with_counts led_encoder nb nc) channel
        data).encoder.bytes_encoder.2 = nb + 1 ∧
      (rmt_encode_led_strip (counted B) (counted C) (with_counts led_encoder nb nc) channel
        data).encoder.copy_encoder.2 = nc + 1 := by
    subst hB
    simp only [rmt_encode_led_strip, with_counts, counted, hs, if_true, hc, hf', if_false,
      ne_eq, not_false_eq_true, encode_case_1]
    constructor <;> split_ifs <;> rfl
  rw [hmain]
  refine ⟨rfl, h1, h2, h4, hcnt.1, hcnt.2, h5.trans hsum,
    fun hlt => (h5.trans hsum).trans (Nat.mod_eq_of_lt hlt), ?_⟩
  by_cases hcc : rC.state &&& RMT_ENCODING_COMPLETE = 0
  · rw [(h7 hcc).1, if_neg (fun h => h hcc)]
  · rw [(h6 hcc).1, if_pos hcc]

theorem fall_through_on_complete_witness :
    (rmt_encode_led_strip bytes_encoder copy_encoder ws2812_encoder (slot 20)
      [0xA5]).encoded_symbols = 8 + 1 ∧
    (rmt_encode_led_strip bytes_encoder copy_encoder ws2812_encoder (slot 20)
      [0xA5]).encoder.state = 0 :=
  ⟨(fall_through_on_complete bytes_encoder copy_encoder ws2812_encoder (slot 20) [0xA5] 0 0
      _ _ rfl rfl rfl (by decide) (by decide)).2.2.2.2.2.2.2.1 (by decide),
   (fall_through_on_complete bytes_encoder copy_encoder ws2812_encoder (slot 20) [0xA5] 0 0
      _ _ rfl rfl rfl (by decide) (by decide)).2.2.2.2.2.2.2.2⟩

/-- C18. When an invocation of `rmt_encode_led_strip` starts in the phase `SendData` and
the status of the data sub-encoder contains buffer-full, the invocation returns at once:
the returned status contains buffer-full and not complete; the reset sub-encoder is not
called (its private data and its call counter are unchanged, the channel is the one the
data sub-encoder left, and the result is the same for every reset sub-encoder); the
returned count is the count of the data sub-encoder; and the phase afterwards is
`SendReset` if the data sub-encoder also reported complete and `SendData` otherwise. -/
theorem backpressure_in_data_phase {σb σc : Type} (B : rmt_encoder_t σb (List UInt8))
    (C : rmt_encoder_t σc (List rmt_symbol_word_t))
    (led_encoder : rmt_led_strip_encoder_t σb σc) (channel : rmt_channel_t)
    (data : List UInt8) (nb nc : Nat) (rB : encode_result_t σb)
    (hs : led_encoder.state = 0)
    (hB : B.encode led_encoder.bytes_encoder channel data = rB)
    (hcount : rB.count < SIZE_T)
    (hf : rB.state &&& RMT_ENCODING_MEM_FULL ≠ 0) :
    (rmt_encode_led_strip B C led_encoder channel data).ret_state &&&
      RMT_ENCODING_MEM_FULL ≠ 0 ∧
    (rmt_encode_led_strip B C led_encoder channel data).ret_state &&&
      RMT_ENCODING_COMPLETE = 0 ∧
    (rmt_encode_led_strip B C led_encoder channel data).encoder.copy_encoder =
      led_encoder.copy_encoder ∧
    (rmt_encode_led_strip B C led_encoder channel data).encoder.bytes_encoder = rB.encoder ∧
    (rmt_encode_led_strip B C led_encoder channel data).channel = rB.channel ∧
    (rmt_encode_led_strip (counted B) (counted C) (with_counts led_encoder nb nc) channel
      data).encoder.copy_encoder.2 = nc ∧
    (rmt_encode_led_strip (counted B) (counted C) (with_counts led_encoder nb nc) channel
      data).encoder.bytes_encoder.2 = nb + 1 ∧
    (∀ C2 : rmt_encoder_t σc (List rmt_symbol_word_t),
      rmt_encode_led_strip B C2 led_encoder channel data =
        rmt_encode_led_strip B C led_encoder channel data) ∧
    (rmt_encode_led_strip B C led_encoder channel data).encoded_symbols = rB.count ∧
    (rmt_encode_led_strip B C led_encoder channel data).encoder.state =
      (if rB.state &&& RMT_ENCODING_COMPLETE ≠ 0 then 1 else 0) := by
  have hmain : ∀ C2 : rmt_encoder_t σc (List rmt_symbol_word_t),
      rmt_encode_led_strip B C2 led_encoder channel data =
        { encoder :=
            if rB.state &&& RMT_ENCODING_COMPLETE ≠ 0 then
              { led_encoder with bytes_encoder := rB.encoder, state := 1 }
            else { led_encoder with bytes_encoder := rB.encoder },
          channel := rB.channel, encoded_symbols := rB.count,
          ret_state := RMT_ENCODING_RESET ||| RMT_ENCODING_MEM_FULL } := by
    intro C2
    simp only [rmt_encode_led_strip, hs, if_true, hB, Nat.zero_add,
      Nat.mod_eq_of_lt hcount]
    rw [if_pos hf]
  have hcnt :
      (rmt_encode_led_strip (counted B) (counted C) (with_counts led_encoder nb nc) channel
        data).encoder.copy_encoder.2 = nc ∧
      (rmt_encode_led_strip (counted B) (counted C) (with_counts led_encoder nb nc) channel
        data).encoder.bytes_encoder.2 = nb + 1 := by
    subst hB
    simp only [rmt_encode_led_strip, with_counts, counted, hs, if_true]
    rw [if_pos hf]
    constructor <;> split_ifs <;> rfl
  refine ⟨?_, ?_, ?_, ?_, ?_, hcnt.1, hcnt.2, fun C2 => (hmain C2).trans (hmain C).symm,
    ?_, ?_⟩
  · rw [hmain C]
    show (RMT_ENCODING_RESET ||| RMT_ENCODING_MEM_FULL) &&& RMT_ENCODING_MEM_FULL ≠ 0
    decide
  · rw [hmain C]
    show (RMT_ENCODING_RESET ||| RMT_ENCODING_MEM_FULL) &&& RMT_ENCODING_COMPLETE = 0
    decide
  · rw [hmain C]; simp only; split_ifs <;> rfl
  · rw [hmain C]; simp only; split_ifs <;> rfl
  · rw [hmain C]
  · rw [hmain C]
  · rw [hmain C]; simp only; split_ifs <;> first | rfl | exact hs

theorem backpressure_in_data_phase_witness :
    (rmt_encode_led_strip bytes_encoder copy_encoder ws2812_encoder (slot 3)
      [0xA5]).ret_state &&& RMT_ENCODING_MEM_FULL ≠ 0 ∧
    (rmt_encode_led_strip bytes_encoder copy_encoder ws2812_encoder (slot 3)
      [0xA5]).encoded_symbols = 3 ∧
    (rmt_encode_led_strip bytes_encoder copy_encoder ws2812_encoder (slot 3)
      [0xA5]).encoder.state = 0 :=
  ⟨(backpressure_in_data_phase bytes_encoder copy_encoder ws2812_encoder (slot 3) [0xA5] 0 0
      _ rfl rfl (by decide) (by decide)).1,
   (backpressure_in_data_phase bytes_encoder copy_encoder ws2812_encoder (slot 3) [0xA5] 0 0
      _ rfl rfl (by decide) (by decide)).2.2.2.2.2.2.2.2.1,
   (backpressure_in_data_phase bytes_encoder copy_encoder ws2812_encoder (slot 3) [0xA5] 0 0
      _ rfl rfl (by decide) (by decide)).2.2.2.2.2.2.2.2.2⟩

/-- C19. When an invocation of `rmt_encode_led_strip` starts in the phase `SendReset`, the
data sub-encoder is not called (its private data and its call counter are unchanged and
the result is the same for every data sub-encoder) and the reset sub-encoder is called
once with the reset code.  If it reports complete, the phase afterwards is `SendData` and
the returned status contains complete; if it reports buffer-full without complete, the
returned status contains buffer-full and not complete and the phase is still `SendReset`.
After any invocation, from any phase, whose returned status contains complete the phase is
`SendData`. -/
theorem reset_phase_transitions {σb σc : Type} (B : rmt_encoder_t σb (List UInt8))
    (C : rmt_encoder_t σc (List rmt_symbol_word_t))
    (led_encoder : rmt_led_strip_encoder_t σb σc) (channel : rmt_channel_t)
    (data : List UInt8) (nb nc : Nat) (rC : encode_result_t σc)
    (hs : led_encoder.state = 1)
    (hC : C.encode led_encoder.copy_encoder channel [led_encoder.reset_code] = rC) :
    (rmt_encode_led_strip B C led_encoder channel data).encoder.bytes_encoder =
      led_encoder.bytes_encoder ∧
    (rmt_encode_led_strip (counted B) (counted C) (with_counts led_encoder nb nc) channel
      data).encoder.bytes_encoder.2 = nb ∧
    (∀ B2 : rmt_encoder_t σb (List UInt8),
      rmt_encode_led_strip B2 C led_encoder channel data =
        rmt_encode_led_strip B C led_encoder channel data) ∧
    (rmt_encode_led_strip B C led_encoder channel data).encoder.copy_encoder = rC.encoder ∧
    (rmt_encode_led_strip B C led_encoder channel data).channel = rC.channel ∧
    (rmt_encode_led_strip (counted B) (counted C) (with_counts led_encoder nb nc) channel
      data).encoder.copy_encoder.2 = nc + 1 ∧
    (rC.state &&& RMT_ENCODING_COMPLETE ≠ 0 →
      (rmt_encode_led_strip B C led_encoder channel data).encoder.state = 0 ∧
      (rmt_encode_led_strip B C led_encoder channel data).ret_state &&&
        RMT_ENCODING_COMPLETE ≠ 0) ∧
    (rC.state &&& RMT_ENCODING_MEM_FULL ≠ 0 → rC.state &&& RMT_ENCODING_COMPLETE = 0 →
      (rmt_encode_led_strip B C led_encoder channel data).ret_state &&&
        RMT_ENCODING_MEM_FULL ≠ 0 ∧
      (rmt_encode_led_strip B C led_encoder channel data).ret_state &&&
        RMT_ENCODING_COMPLETE = 0 ∧
      (rmt_encode_led_strip B C led_encoder channel data).encoder.state = 1) ∧
    (∀ (l : rmt_led_strip_encoder_t σb σc) (ch : rmt_channel_t) (d : List UInt8),
      (rmt_encode_led_strip B C l ch d).ret_state &&& RMT_ENCODING_COMPLETE ≠ 0 →
      (rmt_encode_led_strip B C l ch d).encoder.state = 0) := by
  have hmain : ∀ B2 : rmt_encoder_t σb (List UInt8),
      rmt_encode_led_strip B2 C led_encoder channel data =
        encode_case_1 C led_encoder channel 0 RMT_ENCODING_RESET := by
    intro B2
    simp only [rmt_encode_led_strip, hs, if_true]
    rw [if_neg (by decide)]
  obtain ⟨h1, h2, _, h4, _, h6, h7, h8, _⟩ := encode_case_1_spec C led_encoder channel 0 rC hC
  have hcnt :
      (rmt_encode_led_strip (counted B) (counted C) (with_counts led_encoder nb nc) channel
        data).encoder.bytes_encoder.2 = nb ∧
      (rmt_encode_led_strip (counted B) (counted C) (with_counts led_encoder nb nc) channel
        data).encoder.copy_encoder.2 = nc + 1 := by
    simp only [rmt_encode_led_strip, with_counts, counted, hs, if_true, encode_case_1]
    rw [if_neg (by decide)]
    constructor <;> split_ifs <;> rfl
  rw [hmain B]
  refine ⟨h1, hcnt.1, fun B2 => hmain B2, h2, h4, hcnt.2, h6, ?_,
    fun l ch d => complete_returns_to_send_data B C l ch d⟩
  intro hfull hnc
  exact ⟨h8 hfull, (h7 hnc).2, (h7 hnc).1.trans hs⟩

theorem reset_phase_transitions_witness :
    (rmt_encode_led_strip bytes_encoder copy_encoder ws2812_encoder_reset_phase (slot 3)
      [0xA5]).encoder.state = 0 ∧
    (rmt_encode_led_strip bytes_encoder copy_encoder ws2812_encoder_reset_phase (slot 3)
      [0xA5]).ret_state &&& RMT_ENCODING_COMPLETE ≠ 0 ∧
    (rmt_encode_led_strip bytes_encoder copy_encoder ws2812_encoder_reset_phase (slot 3)
      [0xA5]).encoder.bytes_encoder = ws2812_encoder_reset_phase.bytes_encoder :=
  ⟨((reset_phase_transitions bytes_encoder copy_encoder ws2812_encoder_reset_phase (slot 3)
      [0xA5] 0 0 _ rfl rfl).2.2.2.2.2.2.1 (by decide)).1,
   ((reset_phase_transitions bytes_encoder copy_encoder ws2812_encoder_reset_phase (slot 3)
      [0xA5] 0 0 _ rfl rfl).2.2.2.2.2.2.1 (by decide)).2,
   (reset_phase_transitions bytes_encoder copy_encoder ws2812_encoder_reset_phase (slot 3)
      [0xA5] 0 0 _ rfl rfl).1⟩

/-- C20, the claim as stated fails: with a data sub-encoder that returns neither flag, an
invocation that starts in the phase `SendData` calls the reset sub-encoder (its call
counter goes from 0 to 1 and the reset symbol is placed in the slot) although the phase is
still `SendData` when it is called, and the invocation reports complete. -/
theorem reset_encoder_called_in_send_data :
    idle_led.state = 0 ∧
    (idle_encoder.encode idle_led.bytes_encoder (slot 4) [0xA5]).state &&&
      RMT_ENCODING_COMPLETE = 0 ∧
    (idle_encoder.encode idle_led.bytes_encoder (slot 4) [0xA5]).state &&&
      RMT_ENCODING_MEM_FULL = 0 ∧
    rmt_encode_led_strip idle_encoder (counted copy_encoder) idle_led (slot 4) [0xA5] =
      encode_case_1 (counted copy_encoder) idle_led (slot 4) 0 RMT_ENCODING_RESET ∧
    idle_led.copy_encoder.2 = 0 ∧
    (rmt_encode_led_strip idle_encoder (counted copy_encoder) idle_led (slot 4)
      [0xA5]).encoder.copy_encoder.2 = 1 ∧
    (rmt_encode_led_strip idle_encoder (counted copy_encoder) idle_led (slot 4)
      [0xA5]).channel.symbols = [rmt_symbol_zero] ∧
    (rmt_encode_led_strip idle_encoder (counted copy_encoder) idle_led (slot 4)
      [0xA5]).ret_state &&& RMT_ENCODING_COMPLETE ≠ 0 := by
  refine ⟨rfl, by decide, by decide, rfl, rfl, by decide, by decide, by decide⟩

/-- C20, amended. In every invocation of `rmt_encode_led_strip` the reset sub-encoder is
called exactly when the phase was `SendReset` on entry, or the phase was `SendData` on
entry and the data sub-encoder did not report buffer-full.  So for a data status with at
least one flag set it is called only if the data sub-encoder reported complete, and then
with the phase already set to `SendReset`; when the data sub-encoder returns with neither
flag set, the code from `case 1:` runs all the same, with the phase still `SendData`. -/
theorem reset_encoder_gate {σb σc : Type} (B : rmt_encoder_t σb (List UInt8))
    (C : rmt_encoder_t σc (List rmt_symbol_word_t))
    (led_encoder : rmt_led_strip_encoder_t σb σc) (channel : rmt_channel_t)
    (data : List UInt8) (nb nc : Nat) (rB : encode_result_t σb)
    (hB : B.encode led_encoder.bytes_encoder channel data = rB) :
    (rmt_encode_led_strip (counted B) (counted C) (with_counts led_encoder nb nc) channel
      data).encoder.copy_encoder.2 =
      (if led_encoder.state = 1 ∨
          (led_encoder.state = 0 ∧ rB.state &&& RMT_ENCODING_MEM_FULL = 0) then nc + 1
        else nc) ∧
    (led_encoder.state = 0 →
      (rB.state &&& RMT_ENCODING_COMPLETE ≠ 0 ∨ rB.state &&& RMT_ENCODING_MEM_FULL ≠ 0) →
      (rmt_encode_led_strip (counted B) (counted C) (with_counts led_encoder nb nc) channel
        data).encoder.copy_encoder.2 = nc + 1 →
      rB.state &&& RMT_ENCODING_COMPLETE ≠ 0 ∧
      rmt_encode_led_strip B C led_encoder channel data =
        encode_case_1 C { led_encoder with bytes_encoder := rB.encoder, state := 1 }
          rB.channel (rB.count % SIZE_T) RMT_ENCODING_RESET) ∧
    (led_encoder.state = 0 → rB.state &&& RMT_ENCODING_COMPLETE = 0 →
      rB.state &&& RMT_ENCODING_MEM_FULL = 0 →
      rmt_encode_led_strip B C led_encoder channel data =
        encode_case_1 C { led_encoder with bytes_encoder := rB.encoder }
          rB.channel (rB.count % SIZE_T) RMT_ENCODING_RESET) := by
  have hcnt : (rmt_encode_led_strip (counted B) (counted C) (with_counts led_encoder nb nc)
      channel data).encoder.copy_encoder.2 =
      (if led_encoder.state = 1 ∨
          (led_encoder.state = 0 ∧ rB.state &&& RMT_ENCODING_MEM_FULL = 0) then nc + 1
        else nc) := by
    subst hB
    by_cases h0 : led_encoder.state = 0
    · have h1 : ¬ led_encoder.state = 1 := by rw [h0]; decide
      by_cases hfull : (B.encode led_encoder.bytes_encoder channel data).state &&&
          RMT_ENCODING_MEM_FULL = 0
      · rw [if_pos (Or.inr ⟨h0, hfull⟩)]
        simp only [rmt_encode_led_strip, with_counts, counted, h0, if_true, encode_case_1]
        rw [if_neg (fun h => h hfull)]
        split_ifs <;> rfl
      · rw [if_neg (by rintro (h | ⟨_, h⟩); exact h1 h; exact hfull h)]
        simp only [rmt_encode_led_strip, with_counts, counted, h0, if_true]
        rw [if_pos hfull]
        split_ifs <;> rfl
    · by_cases h1 : led_encoder.state = 1
      · rw [if_pos (Or.inl h1)]
        unfold rmt_encode_led_strip
        rw [if_neg (by exact h0), if_pos (by exact h1)]
        simp only [with_counts, counted, encode_case_1]
        split_ifs <;> rfl
      · rw [if_neg (by rintro (h | ⟨h, _⟩); exact h1 h; exact h0 h)]
        unfold rmt_encode_led_strip
        rw [if_neg (by exact h0), if_neg (by exact h1)]
        rfl
  refine ⟨hcnt, ?_, ?_⟩
  · intro h0 hflag hcalled
    have h1 : ¬ led_encoder.state = 1 := by rw [h0]; decide
    have hfull : rB.state &&& RMT_ENCODING_MEM_FULL = 0 := by
      by_contra hne
      rw [hcnt, if_neg (by rintro (h | ⟨_, h⟩); exact h1 h; exact hne h)] at hcalled
      omega
    have hc : rB.state &&& RMT_ENCODING_COMPLETE ≠ 0 := by
      rcases hflag with h | h
      · exact h
      · exact absurd hfull h
    refine ⟨hc, ?_⟩
    simp only [rmt_encode_led_strip, h0, if_true, hB, Nat.zero_add]
    rw [if_neg (fun h => h hfull), if_pos hc]
  · intro h0 hc hfull
    simp only [rmt_encode_led_strip, h0, if_true, hB, Nat.zero_add]
    rw [if_neg (fun h => h hfull), if_neg (fun h => h hc)]

theorem reset_encoder_gate_witness :
    (rmt_encode_led_strip (counted bytes_encoder) (counted copy_encoder)
      (with_counts ws2812_encoder 0 0) (slot 3) [0xA5]).encoder.copy_encoder.2 = 0 ∧
    (rmt_encode_led_strip (counted bytes_encoder) (counted copy_encoder)
      (with_counts ws2812_encoder 0 0) (slot 20) [0xA5]).encoder.copy_encoder.2 = 1 :=
  ⟨(reset_encoder_gate bytes_encoder copy_encoder ws2812_encoder (slot 3) [0xA5] 0 0 _
      rfl).1,
   (reset_encoder_gate bytes_encoder copy_encoder ws2812_encoder (slot 20) [0xA5] 0 0 _
      rfl).1⟩

end LedStrip
